import Mathlib

/-!
Shallow embedding of the M9A-API activity-analysis core
(`src/analyzeContent.py`) and proofs about it.

Modelling conventions:

* Python strings are Lean `String`s; scanning works on `List Char`.
* Python `re` searches are hand-compiled, pattern by pattern, into
  deterministic scanners with explicit backtracking where the concrete
  pattern needs it (leftmost-match semantics of `re.search` is realized
  by trying every start position in order).  `\s` is modelled by ASCII
  whitespace (space, tab, CR, LF, vertical tab, form feed) and `\d` by
  ASCII digits; the announcements and all claims only involve those.
* `datetime` values are the `Civil` record below; `datetime(...)`
  construction errors (month 13, Feb 30, hour 24, year 0, ...) are the
  `validCivil` check, matching both the constructor checks and the
  `strptime` field validation (each raises `ValueError`).
* Epoch arithmetic: proleptic-Gregorian day numbers via `rataDie`;
  `timestamp() * 1000` is exact integer arithmetic in the reachable
  range, so timestamps are `Int` milliseconds.
* `pytz.FixedOffset(m)` is `Tz.fixedMinutes m` (it raises `ValueError`
  for |m| ≥ 1440); `pytz.timezone "America/New_York"` with
  `localize(..., is_dst=False)` is `Tz.newYork`, whose effective offset
  follows the post-2007 US rule: daylight saving from 03:00 on the
  second Sunday of March (nonexistent civil times resolve to standard
  time under `is_dst=False`) until 01:00 on the first Sunday of
  November (ambiguous civil times resolve to standard time).
* Python exceptions are `Except PyError`; `ValueError`, `KeyError` and
  `AttributeError` are the reachable kinds.
-/

inductive PyError where
  | valueError
  | keyError
  | attributeError
deriving DecidableEq, Repr

/-- Python `\s` for the ASCII range (the only whitespace appearing here). -/
def pyIsSpace (c : Char) : Bool :=
  c == ' ' || c == '\t' || c == '\n' || c == '\r' || c == '\x0b' || c == '\x0c'

def digitVal (c : Char) : Nat := c.toNat - 48

/-- `listStarts pat s` : does `s` start with `pat`? -/
def listStarts : List Char → List Char → Bool
  | [], _ => true
  | _ :: _, [] => false
  | p :: ps, c :: cs => p == c && listStarts ps cs

/-- Python substring containment (`pat in s`) on char lists. -/
def listContains (pat : List Char) : List Char → Bool
  | [] => listStarts pat []
  | c :: cs => listStarts pat (c :: cs) || listContains pat cs

/-- Python `pat in s` on strings. -/
def substrB (pat s : String) : Bool := listContains pat.toList s.toList

/-- Two-digit zero-padded decimal (`%m`, `%d`, `%H`, `%M`). -/
def pad2 (n : Nat) : String := if n < 10 then "0" ++ toString n else toString n

/-- Four-digit zero-padded decimal (`%Y` for the years reachable here). -/
def pad4 (n : Nat) : String :=
  if n < 10 then "000" ++ toString n
  else if n < 100 then "00" ++ toString n
  else if n < 1000 then "0" ++ toString n
  else toString n

/-- A civil (naive) date-time, i.e. the fields of a Python `datetime`. -/
structure Civil where
  year : Nat
  month : Nat
  day : Nat
  hour : Nat
  minute : Nat
  second : Nat
deriving DecidableEq, Repr

def isLeap (y : Nat) : Bool := (y % 4 == 0 && y % 100 != 0) || y % 400 == 0

def daysInMonth (y m : Nat) : Nat :=
  if m = 2 then (if isLeap y then 29 else 28)
  else if m = 4 ∨ m = 6 ∨ m = 9 ∨ m = 11 then 30
  else 31

/-- Cumulative days before month `m` in year `y`. -/
def daysBeforeMonth (y m : Nat) : Nat :=
  let l : Nat := if isLeap y then 1 else 0
  match m with
  | 1 => 0
  | 2 => 31
  | 3 => 59 + l
  | 4 => 90 + l
  | 5 => 120 + l
  | 6 => 151 + l
  | 7 => 181 + l
  | 8 => 212 + l
  | 9 => 243 + l
  | 10 => 273 + l
  | 11 => 304 + l
  | _ => 334 + l

/-- Day count of a civil date with day 0 = 0001-01-01 (proleptic Gregorian). -/
def rataDie (c : Civil) : Nat :=
  let py := c.year - 1
  365 * py + py / 4 - py / 100 + py / 400 + daysBeforeMonth c.year c.month + (c.day - 1)

/-- Days since the Unix epoch 1970-01-01. -/
def epochDay (c : Civil) : Int := (rataDie c : Int) - 719162

/-- Seconds since the Unix epoch of a civil time read as UTC. -/
def civilEpochSec (c : Civil) : Int :=
  epochDay c * 86400 + (c.hour : Int) * 3600 + (c.minute : Int) * 60 + (c.second : Int)

/-- The checks performed by `datetime(...)` / `strptime` field validation:
violating any of them raises `ValueError` in Python. -/
def validCivilB (c : Civil) : Bool :=
  decide (1 ≤ c.year) && decide (c.year ≤ 9999) &&
  decide (1 ≤ c.month) && decide (c.month ≤ 12) &&
  decide (1 ≤ c.day) && decide (c.day ≤ daysInMonth c.year c.month) &&
  decide (c.hour ≤ 23) && decide (c.minute ≤ 59)

/-- Lexicographic key of a civil time (strictly monotone in the fields). -/
def civilKey (c : Civil) : Nat :=
  ((((c.year * 16 + c.month) * 32 + c.day) * 24 + c.hour) * 60 + c.minute) * 60 + c.second

/-- Days to add to `y-m-d` to reach the next Sunday (0 if it is one). -/
def sundayOffset (y m d : Nat) : Nat :=
  (13 - rataDie ⟨y, m, d, 0, 0, 0⟩ % 7) % 7

def secondSundayMarch (y : Nat) : Nat := 8 + sundayOffset y 3 8

def firstSundayNov (y : Nat) : Nat := 1 + sundayOffset y 11 1

/-- Daylight saving in effect for `America/New_York` under
`localize(..., is_dst=False)` (post-2007 US rule, see the header note). -/
def nyIsDst (c : Civil) : Bool :=
  decide (civilKey ⟨c.year, 3, secondSundayMarch c.year, 3, 0, 0⟩ ≤ civilKey c) &&
  decide (civilKey c < civilKey ⟨c.year, 11, firstSundayNov c.year, 1, 0, 0⟩)

/-- Effective UTC offset, in seconds, applied by `America/New_York`. -/
def nyOffsetSec (c : Civil) : Int := if nyIsDst c then -14400 else -18000

/-- The two kinds of tzinfo the converter can build. -/
inductive Tz where
  | fixedMinutes (m : Int)
  | newYork
deriving DecidableEq, Repr

/-- Epoch seconds of `tz.localize(c)` (exact for the reachable inputs). -/
def localizeEpochSec : Tz → Civil → Int
  | .fixedMinutes m, c => civilEpochSec c - m * 60
  | .newYork, c => civilEpochSec c - nyOffsetSec c

/-! ## Hand-compiled `re` scanners -/

/-- Exactly `n` ASCII digits, returning their decimal value. -/
def takeDigitsAux : Nat → Nat → List Char → Option (Nat × List Char)
  | 0, acc, cs => some (acc, cs)
  | _ + 1, _, [] => none
  | n + 1, acc, c :: cs =>
    if c.isDigit then takeDigitsAux n (acc * 10 + digitVal c) cs else none

def takeDigits (n : Nat) (cs : List Char) : Option (Nat × List Char) :=
  takeDigitsAux n 0 cs

/-- One or more ASCII digits, greedy (`\d+`). -/
def takeDigitsPlus (cs : List Char) : Option (Nat × List Char) :=
  match cs with
  | c :: _ =>
    if c.isDigit then
      let rec go : Nat → List Char → Nat × List Char
        | acc, d :: ds => if d.isDigit then go (acc * 10 + digitVal d) ds else (acc, d :: ds)
        | acc, [] => (acc, [])
      some (go 0 cs)
    else none
  | [] => none

def expectChar (c : Char) : List Char → Option (List Char)
  | d :: cs => if d == c then some cs else none
  | [] => none

def expectLit : List Char → List Char → Option (List Char)
  | [], cs => some cs
  | _ :: _, [] => none
  | p :: ps, c :: cs => if p == c then expectLit ps cs else none

/-- `\s*` (greedy, no backtracking needed: nothing after it matches space). -/
def wsStar : List Char → List Char
  | c :: cs => if pyIsSpace c then wsStar cs else c :: cs
  | [] => []

/-- `\s+`. -/
def wsPlus : List Char → Option (List Char)
  | c :: cs => if pyIsSpace c then some (wsStar cs) else none
  | [] => none

/-- `(\d{1,2})` with regex greedy backtracking: try two digits, and if the
continuation `k` fails, fall back to one digit. -/
def take12 {α : Type} (cs : List Char) (k : Nat → List Char → Option α) : Option α :=
  match cs with
  | [] => none
  | c :: cs1 =>
    if c.isDigit then
      match cs1 with
      | c2 :: cs2 =>
        if c2.isDigit then
          match k (digitVal c * 10 + digitVal c2) cs2 with
          | some r => some r
          | none => k (digitVal c) cs1
        else k (digitVal c) cs1
      | [] => k (digitVal c) []
    else none

/-- Groups of one `YYYY-MM-DD HH:MM` block of the converter's pattern. -/
structure DateG where
  y : Nat
  mo : Nat
  d : Nat
  h : Nat
  mi : Nat
deriving DecidableEq, Repr

def toCivil (g : DateG) : Civil := ⟨g.y, g.mo, g.d, g.h, g.mi, 0⟩

/-- `\d{4}-\d{2}-\d{2}\s+\d{2}:\d{2}` anchored at the head. -/
def matchDateG (cs : List Char) : Option (DateG × List Char) := do
  let (y, cs) ← takeDigits 4 cs
  let cs ← expectChar '-' cs
  let (mo, cs) ← takeDigits 2 cs
  let cs ← expectChar '-' cs
  let (d, cs) ← takeDigits 2 cs
  let cs ← wsPlus cs
  let (h, cs) ← takeDigits 2 cs
  let cs ← expectChar ':' cs
  let (mi, cs) ← takeDigits 2 cs
  some (⟨y, mo, d, h, mi⟩, cs)

/-- `\(UTC([+-]?\d+)\)` anchored at the head; value of group 3 as an `Int`. -/
def matchUtcTail (cs : List Char) : Option Int := do
  let cs ← expectLit "(UTC".toList cs
  match cs with
  | '+' :: cs2 => do
    let (n, cs3) ← takeDigitsPlus cs2
    let _ ← expectChar ')' cs3
    some (n : Int)
  | '-' :: cs2 => do
    let (n, cs3) ← takeDigitsPlus cs2
    let _ ← expectChar ')' cs3
    some (-(n : Int))
  | _ => do
    let (n, cs3) ← takeDigitsPlus cs
    let _ ← expectChar ')' cs3
    some (n : Int)

/-- The converter's full pattern anchored at the head:
`(\d{4}-..\d{2}:\d{2})\s*-\s*(\d{4}-..\d{2}:\d{2})\s*(?:\d{2}:\d{2})?\s*\(UTC([+-]?\d+)\)`.
The optional `HH:MM` group backtracks: if taking it makes the tail fail,
it is skipped. -/
def convMatchAt (cs : List Char) : Option (DateG × DateG × Int) := do
  let (g1, cs) ← matchDateG cs
  let cs := wsStar cs
  let cs ← expectChar '-' cs
  let cs := wsStar cs
  let (g2, cs) ← matchDateG cs
  let cs := wsStar cs
  let withOpt : Option Int := do
    let (_, csA) ← takeDigits 2 cs
    let csA ← expectChar ':' csA
    let (_, csA) ← takeDigits 2 csA
    matchUtcTail (wsStar csA)
  match withOpt with
  | some off => some (g1, g2, off)
  | none => (matchUtcTail cs).map fun off => (g1, g2, off)

/-- `re.search` of the converter's pattern: leftmost match. -/
def convSearch (cs : List Char) : Option (DateG × DateG × Int) :=
  match convMatchAt cs with
  | some r => some r
  | none =>
    match cs with
    | [] => none
    | _ :: rest => convSearch rest

/-- `pytz.timezone("America/New_York")` for offset −5, else
`pytz.FixedOffset(offset * 60)` (which raises for |minutes| ≥ 1440). -/
def resolveTz (off : Int) : Except PyError Tz :=
  if off = -5 then .ok .newYork
  else if 24 ≤ off.natAbs then .error .valueError
  else .ok (.fixedMinutes (off * 60))

/-- `convert_to_timestamps` of `src/analyzeContent.py` (lines 203-242):
parse the canonical range string, resolve the zone, localize both ends,
force second 59 when the end minute is 59, return epoch milliseconds. -/
def convert_to_timestamps (s : String) : Except PyError (Int × Int) :=
  match convSearch s.toList with
  | none => .error .valueError
  | some (g1, g2, off) =>
    match resolveTz off with
    | .error e => .error e
    | .ok tz =>
      if validCivilB (toCivil g1) && validCivilB (toCivil g2) then
        let st := localizeEpochSec tz (toCivil g1)
        let en := localizeEpochSec tz (toCivil g2)
        let en := if g2.mi == 59 then en + 59 else en
        .ok (st * 1000, en * 1000)
      else .error .valueError

/-! ## String replacement and formatting -/

/-- One pass of Python `str.replace(pat, rep)` (all non-overlapping
occurrences, left to right); `fuel` bounds the recursion and is always
called with the string length (each step consumes at least one char for
the nonempty patterns used here). -/
def replaceAllAux (pat rep : List Char) : Nat → List Char → List Char
  | 0, s => s
  | fuel + 1, s =>
    if pat ≠ [] ∧ listStarts pat s then
      rep ++ replaceAllAux pat rep fuel (s.drop pat.length)
    else
      match s with
      | [] => []
      | c :: cs => c :: replaceAllAux pat rep fuel cs

/-- Python `s.replace(pat, rep)` for nonempty `pat`. -/
def pyReplace (s pat rep : String) : String :=
  ⟨replaceAllAux pat.toList rep.toList s.toList.length s.toList⟩

/-- `strftime("%Y-%m-%d %H:%M")`: seconds are not printed. -/
def fmtCivilMin (c : Civil) : String :=
  pad4 c.year ++ "-" ++ pad2 c.month ++ "-" ++ pad2 c.day ++ " " ++
    pad2 c.hour ++ ":" ++ pad2 c.minute

/-- The canonical range string the parsers emit. -/
def fmtRange (a b : Civil) (off : String) : String :=
  fmtCivilMin a ++ " - " ++ fmtCivilMin b ++ " (UTC" ++ off ++ ")"

/-! ## cn duration parser (`process_combat_duration_cn`, lines 245-307) -/

/-- `(\d{1,2})/(\d{1,2})\s*(\d{1,2}):(\d{1,2})` anchored at the head. -/
def cnTimeAt (cs : List Char) : Option (Nat × Nat × Nat × Nat) :=
  take12 cs fun mo cs => do
    let cs ← expectChar '/' cs
    take12 cs fun d cs =>
      take12 (wsStar cs) fun h cs => do
        let cs ← expectChar ':' cs
        take12 cs fun mi _ => some (mo, d, h, mi)

/-- `re.search` of the cn start pattern. -/
def cnSearchStart (cs : List Char) : Option (Nat × Nat × Nat × Nat) :=
  match cnTimeAt cs with
  | some r => some r
  | none =>
    match cs with
    | [] => none
    | _ :: rest => cnSearchStart rest

/-- `-\s*(\d{1,2})/(\d{1,2})\s*(\d{1,2}):(\d{1,2})` anchored at the head. -/
def cnEndAt (cs : List Char) : Option (Nat × Nat × Nat × Nat) := do
  let cs ← expectChar '-' cs
  cnTimeAt (wsStar cs)

/-- `re.search` of the cn end pattern. -/
def cnSearchEnd (cs : List Char) : Option (Nat × Nat × Nat × Nat) :=
  match cnEndAt cs with
  | some r => some r
  | none =>
    match cs with
    | [] => none
    | _ :: rest => cnSearchEnd rest

/-- `process_combat_duration_cn`.  The wall-clock read
`datetime.now(beijing_tz)` is passed in as `now_year`/`now_month`
(the only fields the function uses).  A fragment whose start or end
pattern is missing, or whose fields fail the `datetime` constructor,
is returned unchanged (soft failure). -/
def process_combat_duration_cn (now_year now_month : Nat) (duration : String) : String :=
  match cnSearchStart duration.toList, cnSearchEnd duration.toList with
  | some (sm, sd, sh, smin), some (em, ed, eh, emin) =>
    let start_year := now_year
    let end_year := now_year
    let end_year := if now_month > em ∧ sm > em then now_year + 1 else end_year
    let end_year := if sm > em then now_year + 1 else end_year
    let sc : Civil := ⟨start_year, sm, sd, sh, smin, 0⟩
    let ec : Civil := ⟨end_year, em, ed, eh, emin, 0⟩
    if validCivilB sc && validCivilB ec then
      let ec2 := if emin == 59 then { ec with second := 59 } else ec
      fmtRange sc ec2 "+8"
    else duration
  | _, _ => duration

/-- Modelled from the spec (§9, duplicated rounding rule): the cn parser
with the `second=59` replacement removed, for the refinement claim. -/
def process_combat_duration_cn_nosec (now_year now_month : Nat) (duration : String) : String :=
  match cnSearchStart duration.toList, cnSearchEnd duration.toList with
  | some (sm, sd, sh, smin), some (em, ed, eh, emin) =>
    let start_year := now_year
    let end_year := now_year
    let end_year := if now_month > em ∧ sm > em then now_year + 1 else end_year
    let end_year := if sm > em then now_year + 1 else end_year
    let sc : Civil := ⟨start_year, sm, sd, sh, smin, 0⟩
    let ec : Civil := ⟨end_year, em, ed, eh, emin, 0⟩
    if validCivilB sc && validCivilB ec then
      fmtRange sc ec "+8"
    else duration
  | _, _ => duration

/-! ## en duration parser (`process_combat_duration_en`, lines 310-319) -/

/-- `After the version update on (\d{4}-\d{2}-\d{2})` anchored at head;
returns the captured date fields. -/
def enUpdateAt (cs : List Char) : Option (Nat × Nat × Nat) := do
  let cs ← expectLit "After the version update on ".toList cs
  let (y, cs) ← takeDigits 4 cs
  let cs ← expectChar '-' cs
  let (mo, cs) ← takeDigits 2 cs
  let cs ← expectChar '-' cs
  let (d, _) ← takeDigits 2 cs
  some (y, mo, d)

def enUpdateSearch (cs : List Char) : Option (Nat × Nat × Nat) :=
  match enUpdateAt cs with
  | some r => some r
  | none =>
    match cs with
    | [] => none
    | _ :: rest => enUpdateSearch rest

/-- `process_combat_duration_en`: substitute the version-update shorthand
(all occurrences of the matched text, as `str.replace` does) with an
explicit `10:00` start; otherwise pass the fragment through unchanged. -/
def process_combat_duration_en (duration : String) : String :=
  match enUpdateSearch duration.toList with
  | none => duration
  | some (y, mo, d) =>
    let dateStr := pad4 y ++ "-" ++ pad2 mo ++ "-" ++ pad2 d
    pyReplace duration ("After the version update on " ++ dateStr) (dateStr ++ " 10:00")

/-! ## jp duration parser (`process_combat_duration_jp`, lines 322-379) -/

def jpWeekdayB (c : Char) : Bool :=
  c == '月' || c == '火' || c == '水' || c == '木' || c == '金' || c == '土' || c == '日'

/-- `(\d{4})年(\d{1,2})月(\d{1,2})日（[月火水木金土日]）\s*(アップデート後|更新後|メンテナンス後)`
anchored at the head; returns the date groups and the rest after the match. -/
def jpUpdateAt (cs : List Char) : Option (Nat × Nat × Nat × List Char) := do
  let (y, cs) ← takeDigits 4 cs
  let cs ← expectChar '年' cs
  take12 cs fun mo cs => do
    let cs ← expectChar '月' cs
    take12 cs fun d cs => do
      let cs ← expectChar '日' cs
      let cs ← expectChar '（' cs
      match cs with
      | [] => none
      | w :: cs2 =>
        if jpWeekdayB w then do
          let cs3 ← expectChar '）' cs2
          let cs4 := wsStar cs3
          match expectLit "アップデート後".toList cs4 with
          | some rest => some (y, mo, d, rest)
          | none =>
            match expectLit "更新後".toList cs4 with
            | some rest => some (y, mo, d, rest)
            | none =>
              match expectLit "メンテナンス後".toList cs4 with
              | some rest => some (y, mo, d, rest)
              | none => none
        else none

/-- First match of the update pattern (groups used for the replacement). -/
def jpUpdateSearch (cs : List Char) : Option (Nat × Nat × Nat × List Char) :=
  match jpUpdateAt cs with
  | some r => some r
  | none =>
    match cs with
    | [] => none
    | _ :: rest => jpUpdateSearch rest

/-- `re.sub(update_pattern, rep, s)`: replace every match with `rep`
(the Python code builds `rep` from the first match only).  Every match
consumes at least one char, so `fuel := length` is enough. -/
def jpSubUpdateAll (rep : List Char) : Nat → List Char → List Char
  | 0, s => s
  | fuel + 1, s =>
    match jpUpdateAt s with
    | some (_, _, _, rest) => rep ++ jpSubUpdateAll rep fuel rest
    | none =>
      match s with
      | [] => []
      | c :: cs => c :: jpSubUpdateAll rep fuel cs

/-- `(?:（[月火水木金土日]）)?\s*(\d{1,2}):(\d{1,2})` anchored at the head. -/
def jpHourMin (cs : List Char) : Option (Nat × Nat) :=
  let core := fun (cs : List Char) =>
    take12 cs fun h cs => do
      let cs ← expectChar ':' cs
      take12 cs fun mi _ => some (h, mi)
  match cs with
  | '（' :: cs2 =>
    match cs2 with
    | [] => none
    | w :: cs3 =>
      if jpWeekdayB w then
        match expectChar '）' cs3 with
        | some cs4 => core (wsStar cs4)
        | none => none
      else none
  | _ => core (wsStar cs)

/-- jp start pattern
`(\d{4})年(\d{1,2})月(\d{1,2})日(?:（[月火水木金土日]）)?\s*(\d{1,2}):(\d{1,2})`
anchored at the head. -/
def jpStartAt (cs : List Char) : Option (Nat × Nat × Nat × Nat × Nat) := do
  let (y, cs) ← takeDigits 4 cs
  let cs ← expectChar '年' cs
  take12 cs fun mo cs => do
    let cs ← expectChar '月' cs
    take12 cs fun d cs => do
      let cs ← expectChar '日' cs
      (jpHourMin cs).map fun hm => (y, mo, d, hm.1, hm.2)

def jpStartSearch (cs : List Char) : Option (Nat × Nat × Nat × Nat × Nat) :=
  match jpStartAt cs with
  | some r => some r
  | none =>
    match cs with
    | [] => none
    | _ :: rest => jpStartSearch rest

/-- jp end pattern
`～\s*(\d{1,2})月(\d{1,2})日(?:（[月火水木金土日]）)?\s*(\d{1,2}):(\d{1,2})`
anchored at the head. -/
def jpEndAt (cs : List Char) : Option (Nat × Nat × Nat × Nat) := do
  let cs ← expectChar '～' cs
  take12 (wsStar cs) fun mo cs => do
    let cs ← expectChar '月' cs
    take12 cs fun d cs => do
      let cs ← expectChar '日' cs
      (jpHourMin cs).map fun hm => (mo, d, hm.1, hm.2)

def jpSearchEnd (cs : List Char) : Option (Nat × Nat × Nat × Nat) :=
  match jpEndAt cs with
  | some r => some r
  | none =>
    match cs with
    | [] => none
    | _ :: rest => jpSearchEnd rest

/-- The two leading `str.replace` calls of `process_combat_duration_jp`
(guarded by `in`-checks, exactly as the source is written). -/
def jpStripMarkers (duration : String) : String :=
  let d1 :=
    if substrB "ストーリーモード：" duration then pyReplace duration "ストーリーモード：" "" else duration
  if substrB "【イベントステージ】開放期間：" d1 then
    pyReplace d1 "【イベントステージ】開放期間：" "" else d1

/-- The preprocessing of `process_combat_duration_jp`: strip the two
markers, then substitute every update-shorthand match by
`"{year}年{month}月{day}日 10:00"` built (unpadded) from the first
match.  Returns the substituted string and `original_duration`. -/
def jpPreprocess (duration0 : String) : String × String :=
  let orig := jpStripMarkers duration0
  match jpUpdateSearch orig.toList with
  | some (y, mo, d, _) =>
    let rep := toString y ++ "年" ++ toString mo ++ "月" ++ toString d ++ "日 10:00"
    (⟨jpSubUpdateAll rep.toList orig.toList.length orig.toList⟩, orig)
  | none => (orig, orig)

/-- `process_combat_duration_jp`.  A fragment where the start or end
sub-pattern is missing yields the sentinel string (soft failure); fields
rejected by the `datetime` constructor raise `ValueError` (this parser,
unlike the cn one, does not catch it).  The end civil time reuses the
start year. -/
def process_combat_duration_jp (duration0 : String) : Except PyError String :=
  let p := jpPreprocess duration0
  match jpStartSearch p.1.toList, jpSearchEnd p.1.toList with
  | some (sy, sm, sd, sh, smin), some (em, ed, eh, emin) =>
    if validCivilB ⟨sy, sm, sd, sh, smin, 0⟩ then
      if validCivilB ⟨sy, em, ed, eh, emin, 0⟩ then
        let sc : Civil := ⟨sy, sm, sd, sh, smin, 0⟩
        let ec : Civil := ⟨sy, em, ed, eh, emin, 0⟩
        let ec2 := if emin == 59 then { ec with second := 59 } else ec
        .ok (fmtRange sc ec2 "+9")
      else .error .valueError
    else .error .valueError
  | _, _ => .ok ("无法解析: " ++ p.2)

/-- Modelled from the spec (§9, duplicated rounding rule): the jp parser
with the `second=59` replacement removed, for the refinement claim. -/
def process_combat_duration_jp_nosec (duration0 : String) : Except PyError String :=
  let p := jpPreprocess duration0
  match jpStartSearch p.1.toList, jpSearchEnd p.1.toList with
  | some (sy, sm, sd, sh, smin), some (em, ed, eh, emin) =>
    if validCivilB ⟨sy, sm, sd, sh, smin, 0⟩ then
      if validCivilB ⟨sy, em, ed, eh, emin, 0⟩ then
        let sc : Civil := ⟨sy, sm, sd, sh, smin, 0⟩
        let ec : Civil := ⟨sy, em, ed, eh, emin, 0⟩
        .ok (fmtRange sc ec "+9")
      else .error .valueError
    else .error .valueError
  | _, _ => .ok ("无法解析: " ++ p.2)

/-! ## Activity data model and the locale extractors (`analyzeContent`) -/

/-- One section dictionary of the Python `activity` dict; keys are
created incrementally, so every field is optional. -/
structure SectionData where
  event_type : Option String := none
  start_time : Option Int := none
  end_time : Option Int := none
deriving DecidableEq, Repr

/-- The Activity mapping: section name → section dict (absent = key
not in the dict).  `re_release` is the `"re-release"` key. -/
structure Activity where
  combat : Option SectionData := none
  anecdote : Option SectionData := none
  re_release : Option SectionData := none
deriving DecidableEq, Repr

/-- A `<p>` tag of the BeautifulSoup parse, abstracted to the two
projections the extractor uses: `html` is `str(p)` and `text` is
`p.get_text().strip()`.  `find_next("p")` is the next element of the
`find_all("p")` list (the announcement documents have no nested `p`),
and calling it past the end yields `None`, so using its result raises
`AttributeError`. -/
structure Para where
  html : String
  text : String
deriving DecidableEq, Repr

/-- `re.sub(r"\r|<b>|</b>", "", line)` — drop every occurrence of the
three alternatives, scanning left to right. -/
def cnStripAux : Nat → List Char → List Char
  | 0, s => s
  | fuel + 1, s =>
    if listStarts "\r".toList s then cnStripAux fuel (s.drop 1)
    else if listStarts "<b>".toList s then cnStripAux fuel (s.drop 3)
    else if listStarts "</b>".toList s then cnStripAux fuel (s.drop 4)
    else
      match s with
      | [] => []
      | c :: cs => c :: cnStripAux fuel cs

def cnStrip (line : String) : String := ⟨cnStripAux line.toList.length line.toList⟩

/-- The five flags of the cn branch plus the activity being built. -/
structure CnState where
  activity : Activity
  combatComplete : Bool := false
  anecdoteFind : Bool := false
  anecdoteComplete : Bool := false
  reReleaseFind : Bool := false
  reReleaseComplete : Bool := false
deriving DecidableEq, Repr

/-- One iteration of the cn line loop (lines 26-62).  Branch order, the
per-branch `continue`s, and the evaluation order inside the combat
branch (the converter runs before the `activity["combat"]` lookup, so a
conversion failure wins over the `KeyError`) follow the source. -/
def cnStep (nY nM : Nat) (st : CnState) (line : String) : Except PyError CnState :=
  let text := cnStrip line
  if st.anecdoteFind && !st.anecdoteComplete && substrB "开放时间" text then
    match convert_to_timestamps (process_combat_duration_cn nY nM text) with
    | .error e => .error e
    | .ok w =>
      .ok { st with anecdoteComplete := true,
                    activity := { st.activity with anecdote := some ⟨none, some w.1, some w.2⟩ } }
  else if st.reReleaseFind && !st.reReleaseComplete && substrB "活动关卡开放时间" text then
    match convert_to_timestamps (process_combat_duration_cn nY nM text) with
    | .error e => .error e
    | .ok w =>
      .ok { st with reReleaseComplete := true,
                    activity := { st.activity with re_release := some ⟨none, some w.1, some w.2⟩ } }
  else if !st.combatComplete && (substrB "【故事模式】" text || substrB "【活动时间】" text) then
    match convert_to_timestamps (process_combat_duration_cn nY nM text) with
    | .error e => .error e
    | .ok w =>
      match st.activity.combat with
      | none => .error .keyError
      | some c =>
        .ok { st with combatComplete := true,
                      activity := { st.activity with
                        combat := some { c with start_time := some w.1, end_time := some w.2 } } }
  else if substrB "「轶事」活动介绍" text then .ok { st with anecdoteFind := true }
  else if substrB "限时重映" text then .ok { st with reReleaseFind := true }
  else .ok st

def cnLoop (nY nM : Nat) (st : CnState) : List String → Except PyError CnState
  | [] => .ok st
  | l :: ls =>
    match cnStep nY nM st l with
    | .error e => .error e
    | .ok st1 => cnLoop nY nM st1 ls

/-- The cn branch of `analyzeContent` (lines 12-63).  `raw` is the
payload string on which the two headline markers are tested before
`json.loads`; `lines` is the list of the `content` fields of the parsed
JSON array (the JSON decoding itself is abstracted into this argument
pair). -/
def analyzeContent_cn (nY nM : Nat) (raw : String) (lines : List String) :
    Except PyError Activity :=
  let act0 : Activity :=
    if substrB "全新主线篇章" raw then
      { combat := some { event_type := some "MainStory" } }
    else if substrB "【故事模式】" raw then
      { combat := some { event_type := some "SideStory" } }
    else {}
  match cnLoop nY nM ⟨act0, false, false, false, false, false⟩ lines with
  | .error e => .error e
  | .ok st => .ok st.activity

/-! ## en extractor (lines 64-130) -/

structure EnState where
  activity : Activity
  mainComplete : Bool := false
  anecdoteFind : Bool := false
  anecdoteComplete : Bool := false
deriving DecidableEq, Repr

/-- First classification loop (lines 73-82): first paragraph whose html
contains a headline marker decides the event type, then `break`. -/
def enClassify : List Para → Option String
  | [] => none
  | p :: rest =>
    if substrB "New Main Story" p.html then some "MainStory"
    else if substrB "Main Event" p.html then some "SideStory"
    else enClassify rest

/-- The `while "UTC" not in p1.find_next("p")...` walk (lines 100-103):
the text of the first following paragraph containing "UTC"; walking past
the last paragraph calls `.get_text()` on `None` (`AttributeError`). -/
def findUTCText : List Para → Except PyError String
  | [] => .error .attributeError
  | q :: qs => if substrB "UTC" q.text then .ok q.text else findUTCText qs

/-- `text = p.find_next("p").get_text().strip()` (single step, lines
111-112 and 123-124): unconditionally the next paragraph's text,
whether or not it contains "UTC". -/
def nextParaText : List Para → Except PyError String
  | [] => .error .attributeError
  | q :: _ => .ok q.text

/-- Lines 87-96: the MainStory version-update handler, guarded by
`main_compelete_flag`; evaluating the guard itself reads
`activity["combat"]["event_type"]` and so raises `KeyError` whenever
the flag is still false and no combat section exists. -/
def enPartA (st : EnState) (text : String) : Except PyError EnState :=
  if st.mainComplete then .ok st
  else
    match st.activity.combat with
    | none => .error .keyError
    | some c =>
      if c.event_type == some "MainStory" && substrB "After the version update on" text then
        match convert_to_timestamps (process_combat_duration_en text) with
        | .error e => .error e
        | .ok w =>
          .ok { st with mainComplete := true,
                        activity := { st.activity with
                          combat := some { c with start_time := some w.1, end_time := some w.2 } } }
      else .ok st

/-- Lines 110-116: the Story Mode handler.  No completion flag guards
it, and when the paragraph lacks "UTC" it looks exactly one paragraph
ahead, reassigning the loop's `text` variable — the possibly reassigned
text is returned alongside the state, because the later
`"[Event Stages]"` check reads it.  The converter runs before the
`activity["combat"]` lookup. -/
def enStoryMode (st : EnState) (text : String) (rest : List Para) :
    Except PyError (EnState × String) :=
  match (if substrB "UTC" text then .ok text else nextParaText rest) with
  | .error e => .error e
  | .ok t =>
    match convert_to_timestamps (process_combat_duration_en t) with
    | .error e => .error e
    | .ok w =>
      match st.activity.combat with
      | none => .error .keyError
      | some c =>
        .ok ({ st with activity := { st.activity with
                combat := some { c with start_time := some w.1, end_time := some w.2 } } }, t)

/-- Lines 121-130: the `[Event Stages]` re-release handler (also not
flag-guarded; one-paragraph lookahead). -/
def enEventStages (st : EnState) (text : String) (rest : List Para) : Except PyError EnState :=
  match (if substrB "UTC" text then .ok text else nextParaText rest) with
  | .error e => .error e
  | .ok t =>
    match convert_to_timestamps (process_combat_duration_en t) with
    | .error e => .error e
    | .ok w =>
      .ok { st with activity := { st.activity with
              re_release := some ⟨none, some w.1, some w.2⟩ } }

/-- One iteration of the en paragraph loop (lines 84-130), with the
source's branch order and `continue`s: the version-update handler and
the Story Mode handler fall through to the later checks, the others
`continue`.  The Story Mode branch may reassign the loop's `text`
variable (line 112), and the `[Event Stages]` check and handler then
read the reassigned text; the `New Anecdote` check reads the html. -/
def enStep (st : EnState) (text html : String) (rest : List Para) : Except PyError EnState :=
  match enPartA st text with
  | .error e => .error e
  | .ok st1 =>
    if st1.anecdoteFind && !st1.anecdoteComplete && substrB "[Duration]" text then
      match findUTCText rest with
      | .error e => .error e
      | .ok t =>
        match convert_to_timestamps t with
        | .error e => .error e
        | .ok w =>
          .ok { st1 with anecdoteComplete := true,
                         activity := { st1.activity with
                           anecdote := some ⟨none, some w.1, some w.2⟩ } }
    else
      match (if substrB "Story Mode" text then enStoryMode st1 text rest
             else .ok (st1, text)) with
      | .error e => .error e
      | .ok (st2, text2) =>
        if substrB "New Anecdote" html then .ok { st2 with anecdoteFind := true }
        else if substrB "[Event Stages]" text2 then enEventStages st2 text2 rest
        else .ok st2

def enLoop (st : EnState) : List Para → Except PyError EnState
  | [] => .ok st
  | p :: rest =>
    match enStep st p.text p.html rest with
    | .error e => .error e
    | .ok st1 => enLoop st1 rest

/-- The en branch of `analyzeContent` (lines 64-130). -/
def analyzeContent_en (paras : List Para) : Except PyError Activity :=
  let act0 : Activity :=
    match enClassify paras with
    | some et => { combat := some { event_type := some et } }
    | none => {}
  match enLoop ⟨act0, false, false, false⟩ paras with
  | .error e => .error e
  | .ok st => .ok st.activity

/-! ## jp extractor (lines 132-198) -/

structure JpState where
  activity : Activity
  mainComplete : Bool := false
  anecdoteFind : Bool := false
  anecdoteComplete : Bool := false
deriving DecidableEq, Repr

/-- First classification loop (lines 141-150). -/
def jpClassify : List Para → Option String
  | [] => none
  | p :: rest =>
    if substrB "新メインストーリー" p.html then some "MainStory"
    else if substrB "イベント本編" p.html then some "SideStory"
    else jpClassify rest

/-- `re.sub(r"【[^】]*】開放期間：", "", text)` (line 169): drop every
occurrence of a lenticular-bracket group followed by the duration
marker. -/
def jpAnecdoteSubAt (cs : List Char) : Option (List Char) := do
  let cs ← expectChar '【' cs
  let rec skipNonClose : List Char → Option (List Char)
    | [] => none
    | c :: cs => if c == '】' then some (c :: cs) else skipNonClose cs
  let cs ← skipNonClose cs
  expectLit "】開放期間：".toList cs

def jpAnecdoteSubAll : Nat → List Char → List Char
  | 0, s => s
  | fuel + 1, s =>
    match jpAnecdoteSubAt s with
    | some rest => jpAnecdoteSubAll fuel rest
    | none =>
      match s with
      | [] => []
      | c :: cs => c :: jpAnecdoteSubAll fuel cs

def jpAnecdoteSub (text : String) : String :=
  ⟨jpAnecdoteSubAll text.toList.length text.toList⟩

/-- Lines 155-164: the MainStory `イベント期間` handler; like the en one,
the guard reads `activity["combat"]["event_type"]` and raises `KeyError`
when no combat section exists. -/
def jpPartA (st : JpState) (text : String) : Except PyError JpState :=
  if st.mainComplete then .ok st
  else
    match st.activity.combat with
    | none => .error .keyError
    | some c =>
      if c.event_type == some "MainStory" && substrB "イベント期間" text then
        match process_combat_duration_jp text with
        | .error e => .error e
        | .ok d =>
          match convert_to_timestamps d with
          | .error e => .error e
          | .ok w =>
            .ok { st with mainComplete := true,
                          activity := { st.activity with
                            combat := some { c with start_time := some w.1, end_time := some w.2 } } }
      else .ok st

/-- One iteration of the jp paragraph loop (lines 152-198). -/
def jpStep (st : JpState) (text html : String) : Except PyError JpState :=
  match jpPartA st text with
  | .error e => .error e
  | .ok st1 =>
    if st1.anecdoteFind && !st1.anecdoteComplete && substrB "開放期間" text then
      match process_combat_duration_jp (jpAnecdoteSub text) with
      | .error e => .error e
      | .ok d =>
        match convert_to_timestamps d with
        | .error e => .error e
        | .ok w =>
          .ok { st1 with anecdoteComplete := true,
                         activity := { st1.activity with
                           anecdote := some ⟨none, some w.1, some w.2⟩ } }
    else if substrB "ストーリーモード：" text then
      match process_combat_duration_jp text with
      | .error e => .error e
      | .ok d =>
        match convert_to_timestamps d with
        | .error e => .error e
        | .ok w =>
          match st1.activity.combat with
          | none => .error .keyError
          | some c =>
            .ok { st1 with activity := { st1.activity with
                    combat := some { c with start_time := some w.1, end_time := some w.2 } } }
    else if substrB "新しいエピソード" html || substrB "新しい「エピソード」" html then
      .ok { st1 with anecdoteFind := true }
    else if substrB "【イベントステージ】開放期間：" text || substrB "ステージ開放期間" text then
      match process_combat_duration_jp text with
      | .error e => .error e
      | .ok d =>
        match convert_to_timestamps d with
        | .error e => .error e
        | .ok w =>
          .ok { st1 with activity := { st1.activity with
                  re_release := some ⟨none, some w.1, some w.2⟩ } }
    else .ok st1

def jpLoop (st : JpState) : List Para → Except PyError JpState
  | [] => .ok st
  | p :: rest =>
    match jpStep st p.text p.html with
    | .error e => .error e
    | .ok st1 => jpLoop st1 rest

/-- The jp branch of `analyzeContent` (lines 132-198). -/
def analyzeContent_jp (paras : List Para) : Except PyError Activity :=
  let act0 : Activity :=
    match jpClassify paras with
    | some et => { combat := some { event_type := some et } }
    | none => {}
  match jpLoop ⟨act0, false, false, false⟩ paras with
  | .error e => .error e
  | .ok st => .ok st.activity

/-- A content payload together with its locale tag: a JSON line array
for cn (raw string plus the decoded `content` fields) or a paragraph
stream for en/jp. -/
inductive Content where
  | cn (raw : String) (lines : List String)
  | en (paras : List Para)
  | jp (paras : List Para)

/-- `analyzeContent(resource, content)` (lines 9-200).  The wall clock
read by the cn duration parser is the `nY`/`nM` parameters (unused by
the other locales). -/
def analyzeContent (nY nM : Nat) : Content → Except PyError Activity
  | .cn raw lines => analyzeContent_cn nY nM raw lines
  | .en paras => analyzeContent_en paras
  | .jp paras => analyzeContent_jp paras

/-! ## Helper lemmas -/

/-- What a successful conversion consists of, given the parse result. -/
lemma convert_ok_spec (s : String) (g1 g2 : DateG) (off : Int) (p : Int × Int)
    (hs : convSearch s.toList = some (g1, g2, off))
    (hc : convert_to_timestamps s = .ok p) :
    ∃ tz, resolveTz off = .ok tz ∧
      validCivilB (toCivil g1) = true ∧ validCivilB (toCivil g2) = true ∧
      p = (localizeEpochSec tz (toCivil g1) * 1000,
           (localizeEpochSec tz (toCivil g2) + if g2.mi == 59 then 59 else 0) * 1000) := by
  unfold convert_to_timestamps at hc
  rw [hs] at hc
  dsimp only at hc
  cases hres : resolveTz off with
  | error e => rw [hres] at hc; dsimp only at hc; cases hc
  | ok tz =>
    rw [hres] at hc
    dsimp only at hc
    refine ⟨tz, rfl, ?_⟩
    by_cases hv : (validCivilB (toCivil g1) && validCivilB (toCivil g2)) = true
    · rw [if_pos hv] at hc
      rcases Bool.and_eq_true_iff.mp hv with ⟨hv1, hv2⟩
      refine ⟨hv1, hv2, ?_⟩
      cases hc
      by_cases h59 : (g2.mi == 59) = true <;> simp [h59]
    · rw [if_neg hv] at hc; cases hc

/-- Forcing second 59 within the same civil minute never flips the
New York daylight-saving decision (the transition boundaries fall on
whole hours). -/
lemma nyIsDst_sec59 (c : Civil) (h : c.second = 0) :
    nyIsDst { c with second := 59 } = nyIsDst c := by
  unfold nyIsDst civilKey
  simp only
  rw [← Bool.decide_and, ← Bool.decide_and, decide_eq_decide]
  constructor <;> intro hx <;> omega

/-- Localizing and then replacing the second by 59 adds exactly 59
seconds to the epoch value, for any zone the converter can build. -/
lemma localize_sec59 (tz : Tz) (c : Civil) (h : c.second = 0) :
    localizeEpochSec tz { c with second := 59 } = localizeEpochSec tz c + 59 := by
  have hsec : civilEpochSec { c with second := 59 } = civilEpochSec c + 59 := by
    unfold civilEpochSec epochDay rataDie
    simp only
    omega
  cases tz with
  | fixedMinutes m => simp only [localizeEpochSec]; rw [hsec]; ring
  | newYork =>
    simp only [localizeEpochSec, nyOffsetSec]
    rw [hsec, nyIsDst_sec59 c h]
    ring

/-! ## Claim theorems -/

/-- C1 (counterexample): the claimed invariant `start_time <= end_time`
fails on the code: `analyzeContent` performs no ordering check, so a cn
payload whose anecdote line carries the reversed range
`5/2 10:00 - 5/1 10:00` yields an Activity whose anecdote window has
`start_time > end_time`. -/
theorem spec_C1_cex :
    analyzeContent 2024 6 (.cn
      "[\x7b\"content\": \"「轶事」活动介绍\"\x7d, \x7b\"content\": \"开放时间 5/2 10:00 - 5/1 10:00\"\x7d]"
      ["「轶事」活动介绍", "开放时间 5/2 10:00 - 5/1 10:00"]) =
      .ok { combat := none,
            anecdote := some ⟨none, some 1714615200000, some 1714528800000⟩,
            re_release := none } ∧
    ¬ ((1714615200000 : Int) ≤ 1714528800000) := by
  exact ⟨rfl, by decide⟩

/-- C1 (amended): every SectionWindow is produced by
`convert_to_timestamps`, and for a canonical string whose zone is a
fixed offset (offset ≠ −5) and whose civil start is not after its civil
end, the returned pair satisfies `start_time <= end_time` — also after
the `:59` extension, which can only push the end later.  (The code
itself never checks the civil order, as the counterexample shows, and
around the −5 daylight-saving gap even civil order would not suffice.) -/
theorem spec_C1_amended :
    ∀ (s : String) (g1 g2 : DateG) (off : Int) (a b : Int),
      convSearch s.toList = some (g1, g2, off) →
      off ≠ -5 →
      civilEpochSec (toCivil g1) ≤ civilEpochSec (toCivil g2) →
      convert_to_timestamps s = .ok (a, b) →
      a ≤ b := by
  intro s g1 g2 off a b hs hoff hle hc
  obtain ⟨tz, hres, _, _, hp⟩ := convert_ok_spec s g1 g2 off (a, b) hs hc
  unfold resolveTz at hres
  rw [if_neg hoff] at hres
  by_cases h24 : 24 ≤ off.natAbs
  · rw [if_pos h24] at hres; cases hres
  · rw [if_neg h24] at hres
    cases hres
    obtain ⟨ha, hb⟩ := Prod.ext_iff.mp hp
    simp only [localizeEpochSec] at ha hb
    by_cases h59 : (g2.mi == 59) = true <;> simp only [h59, if_pos, if_neg] at hb <;> omega

/-- C1 (witness for the amended theorem): a fixed-offset canonical
string with ordered civil times yields an ordered window. -/
theorem spec_C1_witness :
    convSearch ("2024-05-01 10:00 - 2024-05-20 03:59 (UTC+8)").toList =
        some (⟨2024, 5, 1, 10, 0⟩, ⟨2024, 5, 20, 3, 59⟩, 8) ∧
    (1714528800000 : Int) ≤ 1716148799000 :=
  ⟨rfl,
    spec_C1_amended "2024-05-01 10:00 - 2024-05-20 03:59 (UTC+8)"
      ⟨2024, 5, 1, 10, 0⟩ ⟨2024, 5, 20, 3, 59⟩ 8 1714528800000 1716148799000
      rfl (by decide) (by decide) rfl⟩

/-- C3 (confirmed): offset −5 resolves to the daylight-saving-aware
America/New_York zone, every other (accepted) offset N to the fixed
offset of N hours; on the canonical string spanning the 2024 US spring
transition the two instants get effective offsets −5 h and −4 h, so the
converted pair is 23 h apart although the civil times are 24 h apart. -/
theorem spec_C3_dst :
    (∀ off : Int, off ≠ -5 → off.natAbs < 24 →
        resolveTz off = .ok (.fixedMinutes (off * 60))) ∧
    resolveTz (-5) = .ok .newYork ∧
    convert_to_timestamps "2024-03-09 10:00 - 2024-03-10 10:00 (UTC-5)" =
      .ok (1709996400000, 1710079200000) ∧
    civilEpochSec ⟨2024, 3, 10, 10, 0, 0⟩ - civilEpochSec ⟨2024, 3, 9, 10, 0, 0⟩ = 86400 ∧
    (1710079200000 - 1709996400000 : Int) = 86400000 - 3600000 := by
  refine ⟨?_, rfl, rfl, by decide, by decide⟩
  intro off h5 h24
  unfold resolveTz
  rw [if_neg h5, if_neg (by omega)]

/-- C3 (witness): the fixed-offset clause applied at offset 8. -/
theorem spec_C3_witness :
    (8 : Int) ≠ -5 ∧ (8 : Int).natAbs < 24 ∧ resolveTz 8 = .ok (.fixedMinutes (8 * 60)) :=
  ⟨by decide, by decide, spec_C3_dst.1 8 (by decide) (by decide)⟩

/-- C4 (confirmed): for every accepted canonical string, the start
timestamp is the localized start; when the end minute is 59 the end
timestamp is the localized end civil time with second forced to 59,
i.e. exactly 59000 ms later than the same civil time at second 00;
for any other end minute it is the plain localized end. -/
theorem spec_C4_minute59 :
    ∀ (s : String) (g1 g2 : DateG) (off : Int) (a b : Int),
      convSearch s.toList = some (g1, g2, off) →
      convert_to_timestamps s = .ok (a, b) →
      ∃ tz, resolveTz off = .ok tz ∧
        a = localizeEpochSec tz (toCivil g1) * 1000 ∧
        (g2.mi = 59 →
          b = localizeEpochSec tz { toCivil g2 with second := 59 } * 1000 ∧
          b = localizeEpochSec tz (toCivil g2) * 1000 + 59000) ∧
        (g2.mi ≠ 59 → b = localizeEpochSec tz (toCivil g2) * 1000) := by
  intro s g1 g2 off a b hs hc
  obtain ⟨tz, hres, _, _, hp⟩ := convert_ok_spec s g1 g2 off (a, b) hs hc
  obtain ⟨ha, hb⟩ := Prod.ext_iff.mp hp
  refine ⟨tz, hres, ha, ?_, ?_⟩
  · intro h59
    have heq : (g2.mi == 59) = true := by simp [h59]
    rw [heq, if_pos rfl] at hb
    have hloc := localize_sec59 tz (toCivil g2) rfl
    constructor
    · rw [hloc]; omega
    · omega
  · intro h59
    have heq : (g2.mi == 59) = false := by simp [h59]
    rw [heq] at hb
    simpa using hb

/-- C4 (witness): the rule evaluated on a concrete end time with
minute 59 at fixed offset +8. -/
theorem spec_C4_witness :
    ∃ tz, resolveTz 8 = .ok tz ∧
      (1714528800000 : Int) =
        localizeEpochSec tz (toCivil ⟨2024, 5, 1, 10, 0⟩) * 1000 ∧
      (DateG.mi ⟨2024, 5, 20, 3, 59⟩ = 59 →
        (1716148799000 : Int) =
          localizeEpochSec tz { toCivil ⟨2024, 5, 20, 3, 59⟩ with second := 59 } * 1000 ∧
        (1716148799000 : Int) =
          localizeEpochSec tz (toCivil ⟨2024, 5, 20, 3, 59⟩) * 1000 + 59000) ∧
      (DateG.mi ⟨2024, 5, 20, 3, 59⟩ ≠ 59 →
        (1716148799000 : Int) = localizeEpochSec tz (toCivil ⟨2024, 5, 20, 3, 59⟩) * 1000) :=
  spec_C4_minute59 "2024-05-01 10:00 - 2024-05-20 03:59 (UTC+8)"
    ⟨2024, 5, 1, 10, 0⟩ ⟨2024, 5, 20, 3, 59⟩ 8 1714528800000 1716148799000 rfl rfl

/-- C2 (confirmed): for every matching cn fragment and every reference
date the start date gets the current year, and the end date gets the
next year exactly when `start_month > end_month` — the additional
`now.month > end_month` check is subsumed (the produced string does not
depend on the reference month at all); on reference date 2024-12 the
fragment `"12/25 10:00 - 1/5 3:59"` converts to the epoch-ms pair of
2024-12-25 10:00 UTC+8 and 2025-01-05 03:59:59 UTC+8. -/
theorem spec_C2_rollover :
    (∀ (nY nM : Nat) (frag : String) (sm sd sh smin em ed eh emin : Nat),
      cnSearchStart frag.toList = some (sm, sd, sh, smin) →
      cnSearchEnd frag.toList = some (em, ed, eh, emin) →
      validCivilB ⟨nY, sm, sd, sh, smin, 0⟩ = true →
      validCivilB ⟨(if em < sm then nY + 1 else nY), em, ed, eh, emin, 0⟩ = true →
      process_combat_duration_cn nY nM frag =
        fmtRange ⟨nY, sm, sd, sh, smin, 0⟩
          ⟨(if em < sm then nY + 1 else nY), em, ed, eh, emin,
            if emin == 59 then 59 else 0⟩ "+8") ∧
    process_combat_duration_cn 2024 12 "12/25 10:00 - 1/5 3:59" =
      "2024-12-25 10:00 - 2025-01-05 03:59 (UTC+8)" ∧
    convert_to_timestamps (process_combat_duration_cn 2024 12 "12/25 10:00 - 1/5 3:59") =
      .ok (1735092000000, 1736020799000) := by
  refine ⟨?_, rfl, rfl⟩
  intro nY nM frag sm sd sh smin em ed eh emin hstart hend hv1 hv2
  unfold process_combat_duration_cn
  rw [hstart, hend]
  dsimp only
  have hyear : (if sm > em then nY + 1 else if nM > em ∧ sm > em then nY + 1 else nY)
      = (if em < sm then nY + 1 else nY) := by
    by_cases h : em < sm
    · rw [if_pos h, if_pos h]
    · rw [if_neg h, if_neg h, if_neg (fun hand => h hand.2)]
  rw [hyear, hv1, hv2]
  simp only [Bool.and_self, if_pos]
  by_cases h59 : (emin == 59) = true
  · rw [h59]; rfl
  · rw [Bool.not_eq_true] at h59; rw [h59]; rfl

/-- C2 (witness): the general clause applied to the cross-year
fragment at reference date 2024-12. -/
theorem spec_C2_witness :
    cnSearchStart ("12/25 10:00 - 1/5 3:59").toList = some (12, 25, 10, 0) ∧
    cnSearchEnd ("12/25 10:00 - 1/5 3:59").toList = some (1, 5, 3, 59) ∧
    process_combat_duration_cn 2024 12 "12/25 10:00 - 1/5 3:59" =
      fmtRange ⟨2024, 12, 25, 10, 0, 0⟩
        ⟨(if 1 < 12 then 2024 + 1 else 2024), 1, 5, 3, 59, if 59 == 59 then 59 else 0⟩ "+8" :=
  ⟨rfl, rfl,
    spec_C2_rollover.1 2024 12 "12/25 10:00 - 1/5 3:59" 12 25 10 0 1 5 3 59
      rfl rfl (by decide) (by decide)⟩

/-- C8 (confirmed): whenever both jp sub-patterns match, the canonical
string built by `process_combat_duration_jp` places the end instant in
the start's year — no cross-year rollover, even when the end month/day
precede the start. -/
theorem spec_C8_jp_same_year :
    ∀ (frag : String) (sy sm sd sh smin em ed eh emin : Nat),
      jpStartSearch (jpPreprocess frag).1.toList = some (sy, sm, sd, sh, smin) →
      jpSearchEnd (jpPreprocess frag).1.toList = some (em, ed, eh, emin) →
      validCivilB ⟨sy, sm, sd, sh, smin, 0⟩ = true →
      validCivilB ⟨sy, em, ed, eh, emin, 0⟩ = true →
      process_combat_duration_jp frag =
        .ok (fmtRange ⟨sy, sm, sd, sh, smin, 0⟩
          ⟨sy, em, ed, eh, emin, if emin == 59 then 59 else 0⟩ "+9") := by
  intro frag sy sm sd sh smin em ed eh emin hstart hend hv1 hv2
  unfold process_combat_duration_jp
  dsimp only
  rw [hstart, hend]
  dsimp only
  rw [hv1, hv2]
  simp only [if_pos]
  by_cases h59 : (emin == 59) = true
  · rw [h59]; rfl
  · rw [Bool.not_eq_true] at h59; rw [h59]; rfl

/-- C8 (witness): a jp fragment whose end month/day precede the start
still gets the start's year on the end date. -/
theorem spec_C8_witness :
    jpStartSearch (jpPreprocess "2024年12月25日 10:00 ～ 1月5日 3:59").1.toList =
        some (2024, 12, 25, 10, 0) ∧
    jpSearchEnd (jpPreprocess "2024年12月25日 10:00 ～ 1月5日 3:59").1.toList =
        some (1, 5, 3, 59) ∧
    process_combat_duration_jp "2024年12月25日 10:00 ～ 1月5日 3:59" =
      .ok (fmtRange ⟨2024, 12, 25, 10, 0, 0⟩ ⟨2024, 1, 5, 3, 59, if 59 == 59 then 59 else 0⟩ "+9") :=
  ⟨rfl, rfl,
    spec_C8_jp_same_year "2024年12月25日 10:00 ～ 1月5日 3:59" 2024 12 25 10 0 1 5 3 59
      rfl rfl (by decide) (by decide)⟩

/-- C5 (counterexample): the claimed equivalences fail in both
directions.  A fragment with no cn `M/D H:MM` sub-pattern is returned
unchanged by the cn parser, yet the converter succeeds on it (it
already contains a canonical range), so no error reaches the caller;
and a string matching the canonical pattern with an impossible date
(Feb 30) still raises, although the claim says errors happen only on
pattern mismatch. -/
theorem spec_C5_cex :
    cnSearchStart ("x 2024-05-01 10:00 - 2024-05-20 03:59 (UTC+8)").toList = none ∧
    process_combat_duration_cn 2024 6 "x 2024-05-01 10:00 - 2024-05-20 03:59 (UTC+8)" =
      "x 2024-05-01 10:00 - 2024-05-20 03:59 (UTC+8)" ∧
    convert_to_timestamps
        (process_combat_duration_cn 2024 6 "x 2024-05-01 10:00 - 2024-05-20 03:59 (UTC+8)") =
      .ok (1714528800000, 1716148799000) ∧
    convSearch ("2024-02-30 10:00 - 2024-05-20 03:59 (UTC+8)").toList =
      some (⟨2024, 2, 30, 10, 0⟩, ⟨2024, 5, 20, 3, 59⟩, 8) ∧
    convert_to_timestamps "2024-02-30 10:00 - 2024-05-20 03:59 (UTC+8)" =
      .error .valueError :=
  ⟨rfl, rfl, rfl, rfl, rfl⟩

/-- `resolveTz` fails exactly for out-of-range fixed offsets (−5 is
exempt, being mapped to the named zone), always with `ValueError`. -/
lemma resolveTz_error_iff (off : Int) (e : PyError) :
    resolveTz off = .error e ↔ (off ≠ -5 ∧ 24 ≤ off.natAbs ∧ e = .valueError) := by
  unfold resolveTz
  by_cases h5 : off = -5
  · rw [if_pos h5]
    simp [h5]
  · rw [if_neg h5]
    by_cases h24 : 24 ≤ off.natAbs
    · rw [if_pos h24]
      constructor
      · intro h
        cases h
        exact ⟨h5, h24, rfl⟩
      · intro h
        rw [h.2.2]
    · rw [if_neg h24]
      constructor
      · intro h
        cases h
      · intro h
        exact absurd h.2.1 h24

/-- C5 (amended): the converter raises exactly on the inputs whose
canonical pattern is missing, or whose matched fields are rejected by
`datetime`/`strptime`, or whose offset is out of `FixedOffset` range
(and not the exempt −5) — `ValueError` is moreover the only error it
ever signals, so on every other input it succeeds; a cn
fragment whose start or end sub-pattern is missing is returned
unchanged, and a jp one yields the sentinel string — these surface as
converter errors unless the returned string itself happens to contain
a valid canonical range, in which case the converter succeeds on it
(as the counterexample shows). -/
theorem spec_C5_amended :
    (∀ s : String,
      convert_to_timestamps s = .error .valueError ↔
        (convSearch s.toList = none ∨
          ∃ g1 g2 off, convSearch s.toList = some (g1, g2, off) ∧
            (validCivilB (toCivil g1) = false ∨ validCivilB (toCivil g2) = false ∨
              (off ≠ -5 ∧ 24 ≤ off.natAbs)))) ∧
    (∀ (nY nM : Nat) (frag : String),
        cnSearchStart frag.toList = none ∨ cnSearchEnd frag.toList = none →
        process_combat_duration_cn nY nM frag = frag) ∧
    (∀ frag : String,
        jpStartSearch (jpPreprocess frag).1.toList = none ∨
        jpSearchEnd (jpPreprocess frag).1.toList = none →
        process_combat_duration_jp frag = .ok ("无法解析: " ++ (jpPreprocess frag).2)) ∧
    (∀ (s : String) (e : PyError),
        convert_to_timestamps s = .error e → e = .valueError) := by
  refine ⟨?_, ?_, ?_, ?_⟩
  · intro s
    cases hsearch : convSearch s.toList with
    | none =>
      unfold convert_to_timestamps
      rw [hsearch]
      simp
    | some trip =>
      obtain ⟨g1, g2, off⟩ := trip
      unfold convert_to_timestamps
      rw [hsearch]
      dsimp only
      constructor
      · intro herr
        refine Or.inr ⟨g1, g2, off, rfl, ?_⟩
        cases hres : resolveTz off with
        | error e =>
          obtain ⟨h5, h24, _⟩ := (resolveTz_error_iff off e).mp hres
          exact Or.inr (Or.inr ⟨h5, h24⟩)
        | ok tz =>
          rw [hres] at herr
          dsimp only at herr
          by_cases hv : (validCivilB (toCivil g1) && validCivilB (toCivil g2)) = true
          · rw [if_pos hv] at herr
            cases herr
          · rw [if_neg hv] at herr
            rcases Bool.and_eq_false_iff.mp (Bool.eq_false_iff.mpr hv) with h1 | h2
            · exact Or.inl h1
            · exact Or.inr (Or.inl h2)
      · intro hdisj
        rcases hdisj with hnone | ⟨g1x, g2x, offx, heq, hbad⟩
        · cases hnone
        · have heq2 : g1 = g1x ∧ g2 = g2x ∧ off = offx := by
            simpa using heq
          obtain ⟨he1, he2, he3⟩ := heq2
          subst he1
          subst he2
          subst he3
          rcases hbad with h1 | h2 | ⟨h5, h24⟩
          · cases hres : resolveTz off with
            | error e =>
              obtain ⟨_, _, he⟩ := (resolveTz_error_iff off e).mp hres
              rw [he]
            | ok tz =>
              dsimp only
              rw [if_neg (by simp [h1])]
          · cases hres : resolveTz off with
            | error e =>
              obtain ⟨_, _, he⟩ := (resolveTz_error_iff off e).mp hres
              rw [he]
            | ok tz =>
              dsimp only
              rw [if_neg (by simp [h2])]
          · have hz : resolveTz off = .error .valueError :=
              (resolveTz_error_iff off .valueError).mpr ⟨h5, h24, rfl⟩
            rw [hz]
  · intro nY nM frag h
    unfold process_combat_duration_cn
    cases hstart : cnSearchStart frag.toList with
    | none =>
      cases hend : cnSearchEnd frag.toList with
      | none => rfl
      | some r2 => obtain ⟨em, ed, eh, emin⟩ := r2; rfl
    | some r1 =>
      obtain ⟨sm, sd, sh, smin⟩ := r1
      cases hend : cnSearchEnd frag.toList with
      | none => rfl
      | some r2 =>
        obtain ⟨em, ed, eh, emin⟩ := r2
        rcases h with h | h
        · rw [hstart] at h; cases h
        · rw [hend] at h; cases h
  · intro frag h
    unfold process_combat_duration_jp
    dsimp only
    cases hstart : jpStartSearch (jpPreprocess frag).1.toList with
    | none =>
      cases hend : jpSearchEnd (jpPreprocess frag).1.toList with
      | none => rfl
      | some r2 => obtain ⟨em, ed, eh, emin⟩ := r2; rfl
    | some r1 =>
      obtain ⟨sy, sm, sd, sh, smin⟩ := r1
      cases hend : jpSearchEnd (jpPreprocess frag).1.toList with
      | none => rfl
      | some r2 =>
        obtain ⟨em, ed, eh, emin⟩ := r2
        rcases h with h | h
        · rw [hstart] at h; cases h
        · rw [hend] at h; cases h
  · intro s e h
    unfold convert_to_timestamps at h
    cases hsearch : convSearch s.toList with
    | none =>
      rw [hsearch] at h
      dsimp only at h
      cases h
      rfl
    | some trip =>
      obtain ⟨g1, g2, off⟩ := trip
      rw [hsearch] at h
      dsimp only at h
      cases hres : resolveTz off with
      | error e2 =>
        rw [hres] at h
        dsimp only at h
        cases h
        exact ((resolveTz_error_iff off e).mp hres).2.2
      | ok tz =>
        rw [hres] at h
        dsimp only at h
        split at h
        · cases h
        · cases h
          rfl

/-- C5 (witness): each amended clause applied at a concrete input,
exercising both directions of the error characterization. -/
theorem spec_C5_witness :
    convSearch ("garbage").toList = none ∧
    convert_to_timestamps "garbage" = .error .valueError ∧
    convert_to_timestamps "2024-05-01 10:00 - 2024-05-20 03:59 (UTC+8)" =
      .ok (1714528800000, 1716148799000) ∧
    cnSearchStart ("no dates here").toList = none ∧
    process_combat_duration_cn 2024 6 "no dates here" = "no dates here" ∧
    jpStartSearch (jpPreprocess "nonsense").1.toList = none ∧
    process_combat_duration_jp "nonsense" = .ok ("无法解析: " ++ (jpPreprocess "nonsense").2) ∧
    PyError.valueError = PyError.valueError :=
  ⟨rfl, (spec_C5_amended.1 "garbage").mpr (Or.inl rfl), rfl,
    rfl, spec_C5_amended.2.1 2024 6 "no dates here" (Or.inl rfl), rfl,
    spec_C5_amended.2.2.1 "nonsense" (Or.inl rfl),
    spec_C5_amended.2.2.2 "garbage" .valueError rfl⟩

/-- The minute-granularity `strftime` pattern ignores the second field,
so the conditional `second := 59` replacement is invisible in the
formatted range. -/
lemma fmtRange_ite_second (a : Civil) (y mo dd hh mi : Nat) (co : Bool) (off : String) :
    fmtRange a (if co = true then (⟨y, mo, dd, hh, mi, 59⟩ : Civil) else ⟨y, mo, dd, hh, mi, 0⟩) off
      = fmtRange a ⟨y, mo, dd, hh, mi, 0⟩ off := by
  by_cases h : co = true
  · rw [if_pos h]; rfl
  · rw [if_neg h]

/-- C10 (confirmed): dropping the `second=59` replacement from the cn
and jp duration parsers yields extensionally equal functions — the
canonical string is formatted at minute granularity, so that
replacement never changes the output, and the only observable `:59`
application is the converter's. -/
theorem spec_C10_sec59_unobservable :
    (∀ (nY nM : Nat) (d : String),
        process_combat_duration_cn_nosec nY nM d = process_combat_duration_cn nY nM d) ∧
    (∀ d : String, process_combat_duration_jp_nosec d = process_combat_duration_jp d) := by
  constructor
  · intro nY nM d
    unfold process_combat_duration_cn_nosec process_combat_duration_cn
    cases hstart : cnSearchStart d.toList with
    | none => rfl
    | some r1 =>
      obtain ⟨sm, sd, sh, smin⟩ := r1
      cases hend : cnSearchEnd d.toList with
      | none => rfl
      | some r2 =>
        obtain ⟨em, ed, eh, emin⟩ := r2
        dsimp only
        rw [fmtRange_ite_second]
  · intro d
    unfold process_combat_duration_jp_nosec process_combat_duration_jp
    dsimp only
    cases hstart : jpStartSearch (jpPreprocess d).1.toList with
    | none => rfl
    | some r1 =>
      obtain ⟨sy, sm, sd, sh, smin⟩ := r1
      cases hend : jpSearchEnd (jpPreprocess d).1.toList with
      | none => rfl
      | some r2 =>
        obtain ⟨em, ed, eh, emin⟩ := r2
        dsimp only
        rw [fmtRange_ite_second]

/-- C7 (counterexample): the claimed walk-forward does not exist for
the en Story Mode handler: when the matching paragraph lacks "UTC" the
code takes exactly the next paragraph, whatever it contains, so with
the offset-bearing range two paragraphs away the call raises instead
of finding it (the range itself converts fine, as the second conjunct
shows, so the claimed walk would have succeeded). -/
theorem spec_C7_cex :
    analyzeContent 0 0 (.en
      [⟨"<p>Main Event</p>", "Main Event"⟩,
       ⟨"<p>Story Mode</p>", "Story Mode"⟩,
       ⟨"<p>Coming soon</p>", "Coming soon"⟩,
       ⟨"<p>2024-05-01 10:00 - 2024-05-20 03:59 (UTC+8)</p>",
        "2024-05-01 10:00 - 2024-05-20 03:59 (UTC+8)"⟩]) = .error .valueError ∧
    convert_to_timestamps "2024-05-01 10:00 - 2024-05-20 03:59 (UTC+8)" =
      .ok (1714528800000, 1716148799000) := ⟨rfl, rfl⟩

/-- C7 (amended): only the en anecdote handler walks forward — its walk
returns the text of the first subsequent paragraph containing "UTC"
(or raises `AttributeError` when none exists); the en Story Mode and
`[Event Stages]` handlers look exactly one paragraph ahead,
unconditionally using its text, and jp performs no lookahead at all. -/
theorem spec_C7_amended :
    (∀ ps : List Para,
      findUTCText ps =
        match ps.find? (fun q => substrB "UTC" q.text) with
        | some q => .ok q.text
        | none => .error .attributeError) ∧
    (∀ ps : List Para,
      nextParaText ps =
        match ps with
        | [] => .error .attributeError
        | q :: _ => .ok q.text) := by
  constructor
  · intro ps
    induction ps with
    | nil => rfl
    | cons q qs ih =>
      by_cases h : substrB "UTC" q.text = true
      · simp [findUTCText, List.find?, h]
      · rw [Bool.not_eq_true] at h
        simp [findUTCText, List.find?, h, ih]
  · intro ps
    cases ps <;> rfl

/-- C6 (counterexample): the en Story Mode handler has no completion
flag, so a later paragraph matching the same marker reprocesses and
overwrites the stored combat window: with two Story Mode paragraphs the
result differs from the one with only the first. -/
theorem spec_C6_cex :
    analyzeContent 0 0 (.en
      [⟨"<p>Main Event</p>", "Main Event"⟩,
       ⟨"<p>Story Mode 2024-05-01 10:00 - 2024-05-20 03:59 (UTC+8)</p>",
        "Story Mode 2024-05-01 10:00 - 2024-05-20 03:59 (UTC+8)"⟩,
       ⟨"<p>Story Mode 2024-06-01 10:00 - 2024-06-20 03:59 (UTC+8)</p>",
        "Story Mode 2024-06-01 10:00 - 2024-06-20 03:59 (UTC+8)"⟩]) =
      .ok { combat := some ⟨some "SideStory", some 1717207200000, some 1718827199000⟩,
            anecdote := none, re_release := none } ∧
    analyzeContent 0 0 (.en
      [⟨"<p>Main Event</p>", "Main Event"⟩,
       ⟨"<p>Story Mode 2024-05-01 10:00 - 2024-05-20 03:59 (UTC+8)</p>",
        "Story Mode 2024-05-01 10:00 - 2024-05-20 03:59 (UTC+8)"⟩]) =
      .ok { combat := some ⟨some "SideStory", some 1714528800000, some 1716148799000⟩,
            anecdote := none, re_release := none } ∧
    some (⟨some "SideStory", some 1717207200000, some 1718827199000⟩ : SectionData) ≠
      some (⟨some "SideStory", some 1714528800000, some 1716148799000⟩ : SectionData) :=
  ⟨rfl, rfl, by decide⟩

/-- One cn line step never regresses a completion flag and never
touches a section whose flag is already set. -/
lemma cnStep_preserve (nY nM : Nat) (st st1 : CnState) (line : String)
    (h : cnStep nY nM st line = .ok st1) :
    (st.combatComplete = true →
      st1.combatComplete = true ∧ st1.activity.combat = st.activity.combat) ∧
    (st.anecdoteComplete = true →
      st1.anecdoteComplete = true ∧ st1.activity.anecdote = st.activity.anecdote) ∧
    (st.reReleaseComplete = true →
      st1.reReleaseComplete = true ∧ st1.activity.re_release = st.activity.re_release) := by
  unfold cnStep at h
  dsimp only at h
  split at h
  · split at h
    · cases h
    · cases h; simp_all
  · split at h
    · split at h
      · cases h
      · cases h; simp_all
    · split at h
      · split at h
        · cases h
        · split at h
          · cases h
          · cases h; simp_all
      · split at h
        · cases h; simp_all
        · split at h
          · cases h; simp_all
          · cases h; simp_all

/-- The whole cn scan preserves completed sections and their flags. -/
lemma cnLoop_preserve (nY nM : Nat) (lines : List String) (st st2 : CnState)
    (h : cnLoop nY nM st lines = .ok st2) :
    (st.combatComplete = true →
      st2.combatComplete = true ∧ st2.activity.combat = st.activity.combat) ∧
    (st.anecdoteComplete = true →
      st2.anecdoteComplete = true ∧ st2.activity.anecdote = st.activity.anecdote) ∧
    (st.reReleaseComplete = true →
      st2.reReleaseComplete = true ∧ st2.activity.re_release = st.activity.re_release) := by
  induction lines generalizing st with
  | nil =>
    unfold cnLoop at h
    cases h
    simp
  | cons l ls ih =>
    unfold cnLoop at h
    cases hstep : cnStep nY nM st l with
    | error e => rw [hstep] at h; cases h
    | ok st1 =>
      rw [hstep] at h
      have h1 := cnStep_preserve nY nM st st1 l hstep
      have h2 := ih st1 h
      refine ⟨fun hc => ?_, fun ha => ?_, fun hr => ?_⟩
      · obtain ⟨f1, e1⟩ := h1.1 hc
        obtain ⟨f2, e2⟩ := h2.1 f1
        exact ⟨f2, e2.trans e1⟩
      · obtain ⟨f1, e1⟩ := h1.2.1 ha
        obtain ⟨f2, e2⟩ := h2.2.1 f1
        exact ⟨f2, e2.trans e1⟩
      · obtain ⟨f1, e1⟩ := h1.2.2 hr
        obtain ⟨f2, e2⟩ := h2.2.2 f1
        exact ⟨f2, e2.trans e1⟩


/-- Once `main_compelete_flag` is set, the en version-update handler
is inert: the state passes through unchanged. -/
lemma enPartA_inert (st st1 : EnState) (text : String)
    (hm : st.mainComplete = true) (h : enPartA st text = .ok st1) : st1 = st := by
  unfold enPartA at h
  rw [hm] at h
  simp only [if_pos] at h
  cases h
  rfl

/-- The en version-update handler never regresses `main_compelete_flag`
and never touches the anecdote fields. -/
lemma enPartA_preserve (st st1 : EnState) (text : String)
    (h : enPartA st text = .ok st1) :
    (st.mainComplete = true → st1.mainComplete = true) ∧
    st1.anecdoteFind = st.anecdoteFind ∧
    st1.anecdoteComplete = st.anecdoteComplete ∧
    st1.activity.anecdote = st.activity.anecdote := by
  unfold enPartA at h
  split at h
  · cases h; exact ⟨fun hm => hm, rfl, rfl, rfl⟩
  · split at h
    · cases h
    · split at h
      · split at h
        · cases h
        · cases h; exact ⟨fun _ => rfl, rfl, rfl, rfl⟩
      · cases h; exact ⟨fun hm => hm, rfl, rfl, rfl⟩

/-- The en Story Mode handler touches only the combat section. -/
lemma enStoryMode_preserve (st : EnState) (out : EnState × String) (text : String)
    (rest : List Para) (h : enStoryMode st text rest = .ok out) :
    out.1.mainComplete = st.mainComplete ∧
    out.1.anecdoteFind = st.anecdoteFind ∧
    out.1.anecdoteComplete = st.anecdoteComplete ∧
    out.1.activity.anecdote = st.activity.anecdote := by
  unfold enStoryMode at h
  split at h
  · cases h
  · split at h
    · cases h
    · split at h
      · cases h
      · cases h; exact ⟨rfl, rfl, rfl, rfl⟩

/-- The en re-release handler touches only the re-release section. -/
lemma enEventStages_preserve (st st1 : EnState) (text : String)
    (rest : List Para) (h : enEventStages st text rest = .ok st1) :
    st1.mainComplete = st.mainComplete ∧
    st1.anecdoteFind = st.anecdoteFind ∧
    st1.anecdoteComplete = st.anecdoteComplete ∧
    st1.activity.anecdote = st.activity.anecdote := by
  unfold enEventStages at h
  split at h
  · cases h
  · split at h
    · cases h
    · cases h; exact ⟨rfl, rfl, rfl, rfl⟩

/-- One en step keeps `main_compelete_flag` set and never revisits a
completed anecdote. -/
lemma enStep_preserve (st st1 : EnState) (text html : String) (rest : List Para)
    (h : enStep st text html rest = .ok st1) :
    (st.mainComplete = true → st1.mainComplete = true) ∧
    (st.anecdoteComplete = true →
      st1.anecdoteComplete = true ∧ st1.activity.anecdote = st.activity.anecdote) := by
  unfold enStep at h
  cases hA : enPartA st text with
  | error e => rw [hA] at h; dsimp only at h; cases h
  | ok stA =>
    rw [hA] at h
    dsimp only at h
    obtain ⟨hAm, hAf, hAc, hAa⟩ := enPartA_preserve st stA text hA
    split at h
    · rename_i hcond
      split at h
      · cases h
      · split at h
        · cases h
        · cases h
          constructor
          · intro hm
            exact hAm hm
          · intro hc
            rw [hAc, hc] at hcond
            simp at hcond
    · by_cases hsm : substrB "Story Mode" text = true
      · rw [if_pos hsm] at h
        cases hS : enStoryMode stA text rest with
        | error e => rw [hS] at h; dsimp only at h; cases h
        | ok pr =>
          obtain ⟨stB, text2⟩ := pr
          rw [hS] at h
          dsimp only at h
          obtain ⟨hBm, hBf, hBc, hBa⟩ := enStoryMode_preserve stA (stB, text2) text rest hS
          split at h
          · cases h
            refine ⟨fun hm => ?_, fun hc => ⟨?_, ?_⟩⟩
            · show stB.mainComplete = true
              rw [hBm]; exact hAm hm
            · show stB.anecdoteComplete = true
              rw [hBc, hAc]; exact hc
            · exact hBa.trans hAa
          · split at h
            · obtain ⟨hCm, hCf, hCc, hCa⟩ := enEventStages_preserve stB st1 text2 rest h
              refine ⟨fun hm => ?_, fun hc => ⟨?_, ?_⟩⟩
              · rw [hCm, hBm]; exact hAm hm
              · rw [hCc, hBc, hAc]; exact hc
              · exact hCa.trans (hBa.trans hAa)
            · cases h
              refine ⟨fun hm => ?_, fun hc => ⟨?_, ?_⟩⟩
              · rw [hBm]; exact hAm hm
              · rw [hBc, hAc]; exact hc
              · exact hBa.trans hAa
      · rw [if_neg hsm] at h
        dsimp only at h
        split at h
        · cases h
          refine ⟨fun hm => ?_, fun hc => ⟨?_, ?_⟩⟩
          · show stA.mainComplete = true
            exact hAm hm
          · show stA.anecdoteComplete = true
            rw [hAc]; exact hc
          · exact hAa
        · split at h
          · obtain ⟨hCm, hCf, hCc, hCa⟩ := enEventStages_preserve stA st1 text rest h
            refine ⟨fun hm => ?_, fun hc => ⟨?_, ?_⟩⟩
            · rw [hCm]; exact hAm hm
            · rw [hCc, hAc]; exact hc
            · exact hCa.trans hAa
          · cases h
            refine ⟨fun hm => hAm hm, fun hc => ⟨?_, hAa⟩⟩
            rw [hAc]; exact hc

/-- The en scan keeps `main_compelete_flag` set and preserves a
completed anecdote section. -/
lemma enLoop_preserve (paras : List Para) (st st2 : EnState)
    (h : enLoop st paras = .ok st2) :
    (st.mainComplete = true → st2.mainComplete = true) ∧
    (st.anecdoteComplete = true →
      st2.anecdoteComplete = true ∧ st2.activity.anecdote = st.activity.anecdote) := by
  induction paras generalizing st with
  | nil => unfold enLoop at h; cases h; exact ⟨fun hm => hm, fun hc => ⟨hc, rfl⟩⟩
  | cons p rest ih =>
    unfold enLoop at h
    cases hstep : enStep st p.text p.html rest with
    | error e => rw [hstep] at h; cases h
    | ok st1 =>
      rw [hstep] at h
      obtain ⟨h1m, h1c⟩ := enStep_preserve st st1 p.text p.html rest hstep
      obtain ⟨h2m, h2c⟩ := ih st1 h
      refine ⟨fun hm => h2m (h1m hm), fun hc => ?_⟩
      obtain ⟨hf1, he1⟩ := h1c hc
      obtain ⟨hf2, he2⟩ := h2c hf1
      exact ⟨hf2, he2.trans he1⟩

/-- Once `main_compelete_flag` is set, the jp MainStory handler is
inert: the state passes through unchanged. -/
lemma jpPartA_inert (st st1 : JpState) (text : String)
    (hm : st.mainComplete = true) (h : jpPartA st text = .ok st1) : st1 = st := by
  unfold jpPartA at h
  rw [hm] at h
  simp only [if_pos] at h
  cases h
  rfl

/-- The jp MainStory handler never regresses `main_compelete_flag` and
never touches the anecdote fields. -/
lemma jpPartA_preserve (st st1 : JpState) (text : String)
    (h : jpPartA st text = .ok st1) :
    (st.mainComplete = true → st1.mainComplete = true) ∧
    st1.anecdoteFind = st.anecdoteFind ∧
    st1.anecdoteComplete = st.anecdoteComplete ∧
    st1.activity.anecdote = st.activity.anecdote := by
  unfold jpPartA at h
  split at h
  · cases h; exact ⟨fun hm => hm, rfl, rfl, rfl⟩
  · split at h
    · cases h
    · split at h
      · split at h
        · cases h
        · split at h
          · cases h
          · cases h; exact ⟨fun _ => rfl, rfl, rfl, rfl⟩
      · cases h; exact ⟨fun hm => hm, rfl, rfl, rfl⟩

/-- One jp step keeps `main_compelete_flag` set and never revisits a
completed anecdote. -/
lemma jpStep_preserve (st st1 : JpState) (text html : String)
    (h : jpStep st text html = .ok st1) :
    (st.mainComplete = true → st1.mainComplete = true) ∧
    (st.anecdoteComplete = true →
      st1.anecdoteComplete = true ∧ st1.activity.anecdote = st.activity.anecdote) := by
  unfold jpStep at h
  cases hA : jpPartA st text with
  | error e => rw [hA] at h; dsimp only at h; cases h
  | ok stA =>
    rw [hA] at h
    dsimp only at h
    obtain ⟨hAm, hAf, hAc, hAa⟩ := jpPartA_preserve st stA text hA
    split at h
    · rename_i hcond
      split at h
      · cases h
      · split at h
        · cases h
        · cases h
          refine ⟨fun hm => hAm hm, fun hc => ?_⟩
          rw [hAc, hc] at hcond
          simp at hcond
    · split at h
      · -- story mode branch
        split at h
        · cases h
        · split at h
          · cases h
          · split at h
            · cases h
            · cases h
              refine ⟨fun hm => hAm hm, fun hc => ⟨?_, hAa⟩⟩
              rw [hAc]; exact hc
      · split at h
        · cases h
          refine ⟨fun hm => hAm hm, fun hc => ⟨?_, hAa⟩⟩
          rw [hAc]; exact hc
        · split at h
          · -- re-release branch
            split at h
            · cases h
            · split at h
              · cases h
              · cases h
                refine ⟨fun hm => hAm hm, fun hc => ⟨?_, hAa⟩⟩
                rw [hAc]; exact hc
          · cases h
            refine ⟨fun hm => hAm hm, fun hc => ⟨?_, hAa⟩⟩
            rw [hAc]; exact hc

/-- The jp scan keeps `main_compelete_flag` set and preserves a
completed anecdote section. -/
lemma jpLoop_preserve (paras : List Para) (st st2 : JpState)
    (h : jpLoop st paras = .ok st2) :
    (st.mainComplete = true → st2.mainComplete = true) ∧
    (st.anecdoteComplete = true →
      st2.anecdoteComplete = true ∧ st2.activity.anecdote = st.activity.anecdote) := by
  induction paras generalizing st with
  | nil => unfold jpLoop at h; cases h; exact ⟨fun hm => hm, fun hc => ⟨hc, rfl⟩⟩
  | cons p rest ih =>
    unfold jpLoop at h
    cases hstep : jpStep st p.text p.html with
    | error e => rw [hstep] at h; cases h
    | ok st1 =>
      rw [hstep] at h
      obtain ⟨h1m, h1c⟩ := jpStep_preserve st st1 p.text p.html hstep
      obtain ⟨h2m, h2c⟩ := ih st1 h
      refine ⟨fun hm => h2m (h1m hm), fun hc => ?_⟩
      obtain ⟨hf1, he1⟩ := h1c hc
      obtain ⟨hf2, he2⟩ := h2c hf1
      exact ⟨hf2, he2.trans he1⟩

/-- C6 (amended): first-match-wins holds for the completion-flag-guarded
handlers — all three cn sections (once a flag is set, no later line
changes the stored window), the en/jp MainStory version-update and
イベント期間 handlers (once fired they are inert for the rest of the
scan), and the en/jp anecdote handlers (a completed anecdote is never
changed again).  The unguarded handlers — en Story Mode and
`[Event Stages]`, jp `ストーリーモード：` and the re-release markers —
reprocess every matching token, later occurrences overwriting the
stored combat/re-release times: the en counterexample, the concrete jp
clause and the concrete en re-release clause below each show a second
matching token replacing the first window. -/
theorem spec_C6_amended :
    (∀ (nY nM : Nat) (lines : List String) (st st2 : CnState),
      cnLoop nY nM st lines = .ok st2 →
      (st.combatComplete = true → st2.activity.combat = st.activity.combat) ∧
      (st.anecdoteComplete = true → st2.activity.anecdote = st.activity.anecdote) ∧
      (st.reReleaseComplete = true → st2.activity.re_release = st.activity.re_release)) ∧
    (∀ (paras : List Para) (st st2 : EnState),
      enLoop st paras = .ok st2 →
      (st.mainComplete = true → st2.mainComplete = true) ∧
      (st.anecdoteComplete = true →
        st2.anecdoteComplete = true ∧ st2.activity.anecdote = st.activity.anecdote)) ∧
    (∀ (st st1 : EnState) (text : String),
      st.mainComplete = true → enPartA st text = .ok st1 → st1 = st) ∧
    (∀ (paras : List Para) (st st2 : JpState),
      jpLoop st paras = .ok st2 →
      (st.mainComplete = true → st2.mainComplete = true) ∧
      (st.anecdoteComplete = true →
        st2.anecdoteComplete = true ∧ st2.activity.anecdote = st.activity.anecdote)) ∧
    (∀ (st st1 : JpState) (text : String),
      st.mainComplete = true → jpPartA st text = .ok st1 → st1 = st) ∧
    (analyzeContent 0 0 (.jp
        [⟨"<p>イベント本編</p>", "イベント本編"⟩,
         ⟨"<p>ストーリーモード：2024年5月1日 10:00 ～ 5月20日 3:59</p>",
          "ストーリーモード：2024年5月1日 10:00 ～ 5月20日 3:59"⟩,
         ⟨"<p>ストーリーモード：2024年6月1日 10:00 ～ 6月20日 3:59</p>",
          "ストーリーモード：2024年6月1日 10:00 ～ 6月20日 3:59"⟩]) =
        .ok { combat := some ⟨some "SideStory", some 1717203600000, some 1718823599000⟩,
              anecdote := none, re_release := none } ∧
      analyzeContent 0 0 (.jp
        [⟨"<p>イベント本編</p>", "イベント本編"⟩,
         ⟨"<p>ストーリーモード：2024年5月1日 10:00 ～ 5月20日 3:59</p>",
          "ストーリーモード：2024年5月1日 10:00 ～ 5月20日 3:59"⟩]) =
        .ok { combat := some ⟨some "SideStory", some 1714525200000, some 1716145199000⟩,
              anecdote := none, re_release := none } ∧
      some (⟨some "SideStory", some 1717203600000, some 1718823599000⟩ : SectionData) ≠
        some (⟨some "SideStory", some 1714525200000, some 1716145199000⟩ : SectionData)) ∧
    (analyzeContent 0 0 (.en
        [⟨"<p>Main Event</p>", "Main Event"⟩,
         ⟨"<p>[Event Stages] 2024-05-01 10:00 - 2024-05-20 03:59 (UTC+8)</p>",
          "[Event Stages] 2024-05-01 10:00 - 2024-05-20 03:59 (UTC+8)"⟩,
         ⟨"<p>[Event Stages] 2024-06-01 10:00 - 2024-06-20 03:59 (UTC+8)</p>",
          "[Event Stages] 2024-06-01 10:00 - 2024-06-20 03:59 (UTC+8)"⟩]) =
        .ok { combat := some ⟨some "SideStory", none, none⟩, anecdote := none,
              re_release := some ⟨none, some 1717207200000, some 1718827199000⟩ } ∧
      analyzeContent 0 0 (.en
        [⟨"<p>Main Event</p>", "Main Event"⟩,
         ⟨"<p>[Event Stages] 2024-05-01 10:00 - 2024-05-20 03:59 (UTC+8)</p>",
          "[Event Stages] 2024-05-01 10:00 - 2024-05-20 03:59 (UTC+8)"⟩]) =
        .ok { combat := some ⟨some "SideStory", none, none⟩, anecdote := none,
              re_release := some ⟨none, some 1714528800000, some 1716148799000⟩ } ∧
      some (⟨none, some 1717207200000, some 1718827199000⟩ : SectionData) ≠
        some (⟨none, some 1714528800000, some 1716148799000⟩ : SectionData)) := by
  refine ⟨?_, ?_, ?_, ?_, ?_, ⟨rfl, rfl, by decide⟩, rfl, rfl, by decide⟩
  · intro nY nM lines st st2 h
    have hp := cnLoop_preserve nY nM lines st st2 h
    exact ⟨fun hc => (hp.1 hc).2, fun ha => (hp.2.1 ha).2, fun hr => (hp.2.2 hr).2⟩
  · intro paras st st2 h
    exact enLoop_preserve paras st st2 h
  · intro st st1 text hm h
    exact enPartA_inert st st1 text hm h
  · intro paras st st2 h
    exact jpLoop_preserve paras st st2 h
  · intro st st1 text hm h
    exact jpPartA_inert st st1 text hm h

/-- Fully completed demo state used to witness the cn preservation. -/
def cnDemoState : CnState :=
  ⟨{ combat := some ⟨some "MainStory", some 1, some 2⟩,
     anecdote := some ⟨none, some 3, some 4⟩,
     re_release := some ⟨none, some 5, some 6⟩ }, true, true, true, true, true⟩

def cnDemoLines : List String :=
  ["【活动时间】5/2 10:00 - 5/3 10:00", "开放时间 5/2 10:00 - 5/3 10:00"]

/-- Fully completed demo state used to witness the en preservation. -/
def enDemoState : EnState :=
  ⟨{ combat := some ⟨some "MainStory", some 1, some 2⟩,
     anecdote := some ⟨none, some 3, some 4⟩ }, true, true, true⟩

def enDemoParas : List Para := [⟨"<p>[Duration]</p>", "[Duration]"⟩]

/-- Fully completed demo state used to witness the jp preservation. -/
def jpDemoState : JpState :=
  ⟨{ combat := some ⟨some "MainStory", some 1, some 2⟩,
     anecdote := some ⟨none, some 3, some 4⟩ }, true, true, true⟩

def jpDemoParas : List Para := [⟨"<p>開放期間</p>", "開放期間"⟩]

/-- C6 (witness): on completed states, lines and paragraphs matching
the guarded duration markers change nothing, and the inert MainStory
handlers pass the state through. -/
theorem spec_C6_witness :
    (cnLoop 2024 6 cnDemoState cnDemoLines = .ok cnDemoState ∧
      cnDemoState.activity.combat = cnDemoState.activity.combat ∧
      cnDemoState.activity.anecdote = cnDemoState.activity.anecdote ∧
      cnDemoState.activity.re_release = cnDemoState.activity.re_release) ∧
    (enLoop enDemoState enDemoParas = .ok enDemoState ∧
      enDemoState.mainComplete = true ∧
      enDemoState.anecdoteComplete = true ∧
      enDemoState.activity.anecdote = enDemoState.activity.anecdote) ∧
    (enPartA enDemoState "x" = .ok enDemoState ∧ enDemoState = enDemoState) ∧
    (jpLoop jpDemoState jpDemoParas = .ok jpDemoState ∧
      jpDemoState.mainComplete = true ∧
      jpDemoState.anecdoteComplete = true ∧
      jpDemoState.activity.anecdote = jpDemoState.activity.anecdote) ∧
    (jpPartA jpDemoState "x" = .ok jpDemoState ∧ jpDemoState = jpDemoState) :=
  ⟨⟨rfl,
    (spec_C6_amended.1 2024 6 cnDemoLines cnDemoState cnDemoState rfl).1 rfl,
    (spec_C6_amended.1 2024 6 cnDemoLines cnDemoState cnDemoState rfl).2.1 rfl,
    (spec_C6_amended.1 2024 6 cnDemoLines cnDemoState cnDemoState rfl).2.2 rfl⟩,
   ⟨rfl,
    (spec_C6_amended.2.1 enDemoParas enDemoState enDemoState rfl).1 rfl,
    ((spec_C6_amended.2.1 enDemoParas enDemoState enDemoState rfl).2 rfl).1,
    ((spec_C6_amended.2.1 enDemoParas enDemoState enDemoState rfl).2 rfl).2⟩,
   ⟨rfl, spec_C6_amended.2.2.1 enDemoState enDemoState "x" rfl rfl⟩,
   ⟨rfl,
    (spec_C6_amended.2.2.2.1 jpDemoParas jpDemoState jpDemoState rfl).1 rfl,
    ((spec_C6_amended.2.2.2.1 jpDemoParas jpDemoState jpDemoState rfl).2 rfl).1,
    ((spec_C6_amended.2.2.2.1 jpDemoParas jpDemoState jpDemoState rfl).2 rfl).2⟩,
   ⟨rfl, spec_C6_amended.2.2.2.2.1 jpDemoState jpDemoState "x" rfl rfl⟩⟩

/-! ## C9: sections are never partially populated (amended) -/

/-- A present anecdote/re-release dict has both timestamps. -/
def winFullB : Option SectionData → Bool
  | none => true
  | some sd => sd.start_time.isSome && sd.end_time.isSome

/-- A present combat dict has its event type, and its two timestamps
are set together. -/
def combatOkB : Option SectionData → Bool
  | none => true
  | some sd => sd.event_type.isSome && (sd.start_time.isSome == sd.end_time.isSome)

/-- The amended C9 property of an Activity. -/
def sectionsConsistentB (a : Activity) : Bool :=
  combatOkB a.combat && winFullB a.anecdote && winFullB a.re_release

/-- One cn step keeps the Activity consistent. -/
lemma cnStep_consistent (nY nM : Nat) (st st1 : CnState) (line : String)
    (hc : sectionsConsistentB st.activity = true)
    (h : cnStep nY nM st line = .ok st1) :
    sectionsConsistentB st1.activity = true := by
  unfold cnStep at h
  dsimp only at h
  split at h
  · split at h
    · cases h
    · cases h; simp_all [sectionsConsistentB, winFullB, combatOkB]
  · split at h
    · split at h
      · cases h
      · cases h; simp_all [sectionsConsistentB, winFullB, combatOkB]
    · split at h
      · split at h
        · cases h
        · split at h
          · cases h
          · cases h; simp_all [sectionsConsistentB, winFullB, combatOkB]
      · split at h
        · cases h; simp_all [sectionsConsistentB, winFullB, combatOkB]
        · split at h
          · cases h; simp_all [sectionsConsistentB, winFullB, combatOkB]
          · cases h; simp_all [sectionsConsistentB, winFullB, combatOkB]

/-- The cn scan keeps the Activity consistent. -/
lemma cnLoop_consistent (nY nM : Nat) (lines : List String) (st st2 : CnState)
    (hc : sectionsConsistentB st.activity = true)
    (h : cnLoop nY nM st lines = .ok st2) :
    sectionsConsistentB st2.activity = true := by
  induction lines generalizing st with
  | nil => unfold cnLoop at h; cases h; exact hc
  | cons l ls ih =>
    unfold cnLoop at h
    cases hstep : cnStep nY nM st l with
    | error e => rw [hstep] at h; cases h
    | ok st1 =>
      rw [hstep] at h
      exact ih st1 (cnStep_consistent nY nM st st1 l hc hstep) h

/-- The en version-update handler keeps the Activity consistent. -/
lemma enPartA_consistent (st st1 : EnState) (text : String)
    (hc : sectionsConsistentB st.activity = true)
    (h : enPartA st text = .ok st1) :
    sectionsConsistentB st1.activity = true := by
  unfold enPartA at h
  split at h
  · cases h; exact hc
  · split at h
    · cases h
    · split at h
      · split at h
        · cases h
        · cases h; simp_all [sectionsConsistentB, winFullB, combatOkB]
      · cases h; exact hc

/-- The en Story Mode handler keeps the Activity consistent. -/
lemma enStoryMode_consistent (st : EnState) (out : EnState × String) (text : String)
    (rest : List Para)
    (hc : sectionsConsistentB st.activity = true)
    (h : enStoryMode st text rest = .ok out) :
    sectionsConsistentB out.1.activity = true := by
  unfold enStoryMode at h
  split at h
  · cases h
  · split at h
    · cases h
    · split at h
      · cases h
      · cases h; simp_all [sectionsConsistentB, winFullB, combatOkB]

/-- The en re-release handler keeps the Activity consistent. -/
lemma enEventStages_consistent (st st1 : EnState) (text : String) (rest : List Para)
    (hc : sectionsConsistentB st.activity = true)
    (h : enEventStages st text rest = .ok st1) :
    sectionsConsistentB st1.activity = true := by
  unfold enEventStages at h
  split at h
  · cases h
  · split at h
    · cases h
    · cases h; simp_all [sectionsConsistentB, winFullB, combatOkB]

/-- One en step keeps the Activity consistent. -/
lemma enStep_consistent (st st1 : EnState) (text html : String) (rest : List Para)
    (hc : sectionsConsistentB st.activity = true)
    (h : enStep st text html rest = .ok st1) :
    sectionsConsistentB st1.activity = true := by
  unfold enStep at h
  cases hA : enPartA st text with
  | error e => rw [hA] at h; dsimp only at h; cases h
  | ok stA =>
    rw [hA] at h
    dsimp only at h
    have hcA := enPartA_consistent st stA text hc hA
    split at h
    · split at h
      · cases h
      · split at h
        · cases h
        · cases h; simp_all [sectionsConsistentB, winFullB, combatOkB]
    · by_cases hsm : substrB "Story Mode" text = true
      · rw [if_pos hsm] at h
        cases hS : enStoryMode stA text rest with
        | error e => rw [hS] at h; dsimp only at h; cases h
        | ok pr =>
          obtain ⟨stB, text2⟩ := pr
          rw [hS] at h
          dsimp only at h
          have hcB := enStoryMode_consistent stA (stB, text2) text rest hcA hS
          split at h
          · cases h; simpa using hcB
          · split at h
            · exact enEventStages_consistent stB st1 text2 rest hcB h
            · cases h; exact hcB
      · rw [if_neg hsm] at h
        dsimp only at h
        split at h
        · cases h; simpa using hcA
        · split at h
          · exact enEventStages_consistent stA st1 text rest hcA h
          · cases h; exact hcA

/-- The en scan keeps the Activity consistent. -/
lemma enLoop_consistent (paras : List Para) (st st2 : EnState)
    (hc : sectionsConsistentB st.activity = true)
    (h : enLoop st paras = .ok st2) :
    sectionsConsistentB st2.activity = true := by
  induction paras generalizing st with
  | nil => unfold enLoop at h; cases h; exact hc
  | cons p rest ih =>
    unfold enLoop at h
    cases hstep : enStep st p.text p.html rest with
    | error e => rw [hstep] at h; cases h
    | ok st1 =>
      rw [hstep] at h
      exact ih st1 (enStep_consistent st st1 p.text p.html rest hc hstep) h

/-- The jp MainStory handler keeps the Activity consistent. -/
lemma jpPartA_consistent (st st1 : JpState) (text : String)
    (hc : sectionsConsistentB st.activity = true)
    (h : jpPartA st text = .ok st1) :
    sectionsConsistentB st1.activity = true := by
  unfold jpPartA at h
  split at h
  · cases h; exact hc
  · split at h
    · cases h
    · split at h
      · split at h
        · cases h
        · split at h
          · cases h
          · cases h; simp_all [sectionsConsistentB, winFullB, combatOkB]
      · cases h; exact hc

/-- One jp step keeps the Activity consistent. -/
lemma jpStep_consistent (st st1 : JpState) (text html : String)
    (hc : sectionsConsistentB st.activity = true)
    (h : jpStep st text html = .ok st1) :
    sectionsConsistentB st1.activity = true := by
  unfold jpStep at h
  cases hA : jpPartA st text with
  | error e => rw [hA] at h; dsimp only at h; cases h
  | ok stA =>
    rw [hA] at h
    dsimp only at h
    have hcA := jpPartA_consistent st stA text hc hA
    split at h
    · split at h
      · cases h
      · split at h
        · cases h
        · cases h; simp_all [sectionsConsistentB, winFullB, combatOkB]
    · split at h
      · split at h
        · cases h
        · split at h
          · cases h
          · split at h
            · cases h
            · cases h; simp_all [sectionsConsistentB, winFullB, combatOkB]
      · split at h
        · cases h; simpa using hcA
        · split at h
          · split at h
            · cases h
            · split at h
              · cases h
              · cases h; simp_all [sectionsConsistentB, winFullB, combatOkB]
          · cases h; exact hcA

/-- The jp scan keeps the Activity consistent. -/
lemma jpLoop_consistent (paras : List Para) (st st2 : JpState)
    (hc : sectionsConsistentB st.activity = true)
    (h : jpLoop st paras = .ok st2) :
    sectionsConsistentB st2.activity = true := by
  induction paras generalizing st with
  | nil => unfold jpLoop at h; cases h; exact hc
  | cons p rest ih =>
    unfold jpLoop at h
    cases hstep : jpStep st p.text p.html with
    | error e => rw [hstep] at h; cases h
    | ok st1 =>
      rw [hstep] at h
      exact ih st1 (jpStep_consistent st st1 p.text p.html hc hstep) h

/-- C9 (amended): in every Activity returned by `analyzeContent`, a
present anecdote or re-release section always carries both
`start_time` and `end_time`, and a present combat section always
carries `event_type` with its two timestamps set together — but the
combat timestamps may both be absent: a payload whose headline marker
matches while no combat duration line follows returns a combat section
holding `event_type` only (counterexample), so claiming that every
present section has both timestamps is wrong for combat. -/
theorem spec_C9_amended :
    ∀ (nY nM : Nat) (c : Content) (act : Activity),
      analyzeContent nY nM c = .ok act → sectionsConsistentB act = true := by
  intro nY nM c act h
  cases c with
  | cn raw lines =>
    unfold analyzeContent analyzeContent_cn at h
    dsimp only at h
    cases hloop : cnLoop nY nM ⟨(if substrB "全新主线篇章" raw = true then
        { combat := some { event_type := some "MainStory" } }
      else if substrB "【故事模式】" raw = true then
        { combat := some { event_type := some "SideStory" } }
      else {}), false, false, false, false, false⟩ lines with
    | error e => rw [hloop] at h; cases h
    | ok st =>
      rw [hloop] at h
      cases h
      refine cnLoop_consistent nY nM lines _ st ?_ hloop
      split
      · decide
      · split
        · decide
        · decide
  | en paras =>
    unfold analyzeContent analyzeContent_en at h
    dsimp only at h
    cases hcl : enClassify paras with
    | none =>
      rw [hcl] at h
      dsimp only at h
      cases hloop : enLoop ⟨{}, false, false, false⟩ paras with
      | error e => rw [hloop] at h; cases h
      | ok st =>
        rw [hloop] at h
        cases h
        exact enLoop_consistent paras _ st (by decide) hloop
    | some et =>
      rw [hcl] at h
      dsimp only at h
      cases hloop : enLoop ⟨{ combat := some { event_type := some et } }, false, false, false⟩ paras with
      | error e => rw [hloop] at h; cases h
      | ok st =>
        rw [hloop] at h
        cases h
        refine enLoop_consistent paras _ st ?_ hloop
        simp [sectionsConsistentB, winFullB, combatOkB]
  | jp paras =>
    unfold analyzeContent analyzeContent_jp at h
    dsimp only at h
    cases hcl : jpClassify paras with
    | none =>
      rw [hcl] at h
      dsimp only at h
      cases hloop : jpLoop ⟨{}, false, false, false⟩ paras with
      | error e => rw [hloop] at h; cases h
      | ok st =>
        rw [hloop] at h
        cases h
        exact jpLoop_consistent paras _ st (by decide) hloop
    | some et =>
      rw [hcl] at h
      dsimp only at h
      cases hloop : jpLoop ⟨{ combat := some { event_type := some et } }, false, false, false⟩ paras with
      | error e => rw [hloop] at h; cases h
      | ok st =>
        rw [hloop] at h
        cases h
        refine jpLoop_consistent paras _ st ?_ hloop
        simp [sectionsConsistentB, winFullB, combatOkB]

/-- C9 (counterexample): a cn payload consisting only of the MainStory
headline returns an Activity whose combat key is present but holds
only `event_type` — no `start_time`/`end_time`. -/
theorem spec_C9_cex :
    analyzeContent 2024 6 (.cn "[\x7b\"content\": \"全新主线篇章\"\x7d]" ["全新主线篇章"]) =
      .ok { combat := some ⟨some "MainStory", none, none⟩,
            anecdote := none, re_release := none } ∧
    (some (⟨some "MainStory", none, none⟩ : SectionData)).isSome = true ∧
    SectionData.start_time ⟨some "MainStory", none, none⟩ = none :=
  ⟨rfl, rfl, rfl⟩

/-- C9 (witness): the amended consistency evaluated on a concrete en
result. -/
theorem spec_C9_witness :
    analyzeContent 0 0 (.en
      [⟨"<p>Main Event</p>", "Main Event"⟩,
       ⟨"<p>Story Mode 2024-05-01 10:00 - 2024-05-20 03:59 (UTC+8)</p>",
        "Story Mode 2024-05-01 10:00 - 2024-05-20 03:59 (UTC+8)"⟩]) =
      .ok { combat := some ⟨some "SideStory", some 1714528800000, some 1716148799000⟩,
            anecdote := none, re_release := none } ∧
    sectionsConsistentB
      { combat := some ⟨some "SideStory", some 1714528800000, some 1716148799000⟩,
        anecdote := none, re_release := none } = true :=
  ⟨rfl,
    spec_C9_amended 0 0 (.en
      [⟨"<p>Main Event</p>", "Main Event"⟩,
       ⟨"<p>Story Mode 2024-05-01 10:00 - 2024-05-20 03:59 (UTC+8)</p>",
        "Story Mode 2024-05-01 10:00 - 2024-05-20 03:59 (UTC+8)"⟩])
      { combat := some ⟨some "SideStory", some 1714528800000, some 1716148799000⟩,
        anecdote := none, re_release := none } rfl⟩
